import Mathlib

/-!
Verification development for the sales/receivables reporting pipeline:
entity resolution (qry_data_mapping.apply_mappings), the receivables
aggregation walk (ManagementReportGenerator.calculate_report), the USA Spa
aggregation walk (USASpaReportGenerator.calculate_report), and the shared
display-formatting rules (BaseReportGenerator.format_number and
format_percentage, and the inline formatting in the render/export paths).

Monetary quantities are modelled as rationals; missing cells as Option.
-/

namespace SalesReport

/-! ## Display formatting -/

/-- Python's `abs` on a rational value. -/
def pyAbs (q : ℚ) : ℚ := if q < 0 then -q else q

theorem pyAbs_eq_abs (q : ℚ) : pyAbs q = |q| := by
  unfold pyAbs
  split
  · exact (abs_of_neg (by assumption)).symm
  · exact (abs_of_nonneg (by linarith [not_lt.mp (by assumption)])).symm

/-- Round half to even: the behaviour of Python's builtin `round` on exact
values, used by `int(round(value))` in every formatting site. -/
def roundHalfEven (q : ℚ) : ℤ :=
  let f : ℤ := ⌊q⌋
  let frac : ℚ := q - f
  if frac < 1/2 then f
  else if 1/2 < frac then f + 1
  else if f % 2 = 0 then f else f + 1

/-- Round half away from zero: the display-rounding rule as the spec words it.
Kept separate so it can be compared against the code's rounding. -/
def roundHalfAway (q : ℚ) : ℤ :=
  if 0 ≤ q then ⌊q + 1/2⌋ else -⌊-q + 1/2⌋

/-- Embeds `BaseReportGenerator.format_number` (base_report_generator.py,
lines 187-192), which is also the inline pattern
`f"{int(round(v))}" if abs(v) >= 0.5 else ("-" if v == 0 else "0")`
used in the render and export paths of the report generators. -/
def formatNumber (value : ℚ) (zeroPlaceholder : String) : String :=
  if 1/2 ≤ pyAbs value then toString (roundHalfEven value)
  else if value = 0 then zeroPlaceholder
  else "0"

/-- One-decimal percent rendering: models Python's `f"{x:.1f}%"` on exact
values (round half to even at the tenths digit, then print sign, integer part,
one fractional digit and a percent sign). -/
def fmtPct (q : ℚ) : String :=
  let t : ℤ := roundHalfEven (q * 10)
  let sign := if t < 0 then "-" else ""
  let n := t.natAbs
  sign ++ toString (n / 10) ++ "." ++ toString (n % 10) ++ "%"

/-- Embeds `BaseReportGenerator.format_percentage` (base_report_generator.py,
lines 213-216): guarded delta-from-100 percentage with a placeholder when the
reference is zero; the division sits behind the zero test. -/
def formatPercentage (numerator denominator : ℚ) (zeroPlaceholder : String) :
    String :=
  if denominator ≠ 0 then fmtPct (numerator / denominator * 100 - 100)
  else zeroPlaceholder

/-- The raw percentage value computed in `ManagementReportGenerator`'s
render and export paths: `(sales / budget * 100) if budget and budget != 0
else 0` (receivables_report_generator.py, line 324). -/
def renderPct (sales budget : ℚ) : ℚ :=
  if budget ≠ 0 then sales / budget * 100 else 0

/-- The percentage string of the same render/export paths:
`f"{pct:.1f}%" if budget and budget != 0 else "-"` (line 330). -/
def renderPctStr (sales budget : ℚ) : String :=
  if budget ≠ 0 then fmtPct (renderPct sales budget) else "-"

/-- The guarded delta percentage used throughout
`USASpaReportGenerator.calculate_report` for items, section totals, component
totals and the grand total: `(a / b * 100) - 100 if b != 0 else 0`. -/
def deltaPct (a b : ℚ) : ℚ :=
  if b ≠ 0 then a / b * 100 - 100 else 0

example : roundHalfEven (5/2) = 2 := by unfold roundHalfEven; norm_num
example : roundHalfEven (-5/2) = -2 := by unfold roundHalfEven; norm_num
example : roundHalfEven (3/2) = 2 := by unfold roundHalfEven; norm_num
example : roundHalfAway (5/2) = 3 := by unfold roundHalfAway; norm_num

example : formatNumber (5/2) "-" = "2" := by
  rw [formatNumber, if_pos (by unfold pyAbs; norm_num)]
  rw [show roundHalfEven (5/2) = 2 by unfold roundHalfEven; norm_num]
  rfl

example : formatNumber 0 "-" = "-" := by
  rw [formatNumber, if_neg (by unfold pyAbs; norm_num), if_pos rfl]

example : formatNumber (3/10) "-" = "0" := by
  rw [formatNumber, if_neg (by unfold pyAbs; norm_num),
    if_neg (by norm_num)]

/-- C3, counterexample: the claim says values with magnitude at least 0.5 are
formatted with round-half-away-from-zero, but at v = 2.5 the code
(`int(round(2.5))`, Python round-half-to-even) prints "2" while
half-away-from-zero rounding gives 3. -/
theorem c3_rounding_counterexample :
    (1/2 : ℚ) ≤ pyAbs (5/2) ∧
      formatNumber (5/2) "-" ≠ toString (roundHalfAway (5/2)) := by
  refine ⟨by unfold pyAbs; norm_num, ?_⟩
  rw [formatNumber, if_pos (by unfold pyAbs; norm_num)]
  rw [show roundHalfEven (5/2) = 2 by unfold roundHalfEven; norm_num]
  rw [show roundHalfAway (5/2) = 3 by unfold roundHalfAway; norm_num]
  decide

/-- C3, amended: for every displayed numeric value v, if its magnitude is at
least 0.5 it is formatted as v rounded half-to-even (Python `round`) to the
nearest integer; if the magnitude is below 0.5 and v is exactly zero the
zero-placeholder "-" is shown; and if the magnitude is below 0.5 but v is not
exactly zero the literal string "0" is shown instead of the placeholder. -/
theorem c3_display_rounding_amended (v : ℚ) :
    (1/2 ≤ pyAbs v → formatNumber v "-" = toString (roundHalfEven v)) ∧
      (pyAbs v < 1/2 →
        (v = 0 → formatNumber v "-" = "-") ∧
        (v ≠ 0 → formatNumber v "-" = "0")) := by
  unfold formatNumber
  constructor
  · intro h
    rw [if_pos h]
  · intro h
    rw [if_neg (by exact not_le.mpr h)]
    constructor
    · intro hz; rw [if_pos hz]
    · intro hz; rw [if_neg hz]

/-- Witness for C3's amended theorem at v = 2.5 and v = 0.3. -/
theorem c3_display_rounding_amended_witness :
    ((1:ℚ)/2 ≤ pyAbs (5/2) ∧
        formatNumber (5/2) "-" = toString (roundHalfEven (5/2))) ∧
      (pyAbs (3/10) < 1/2 ∧ ((3:ℚ)/10 ≠ 0 → formatNumber (3/10) "-" = "0")) :=
  ⟨⟨by unfold pyAbs; norm_num,
      (c3_display_rounding_amended (5/2)).1 (by unfold pyAbs; norm_num)⟩,
    ⟨by unfold pyAbs; norm_num,
      ((c3_display_rounding_amended (3/10)).2 (by unfold pyAbs; norm_num)).2⟩⟩

/-- C9: wherever a percentage against a budget or prior reference is computed
(format_percentage, the render/export percentage of the receivables
generator, and the guarded delta percentages of the USA Spa walk), a zero
reference yields the placeholder "-" or a zero percentage value; the division
sits behind the zero test in every such site, so it is never evaluated with a
zero reference and no arithmetic error can occur. Missing references enter
these sites as 0 (pandas sum of an empty selection). -/
theorem c9_zero_reference_placeholder (n : ℚ) (ph : String) :
    formatPercentage n 0 ph = ph ∧ renderPctStr n 0 = "-" ∧
      renderPct n 0 = 0 ∧ deltaPct n 0 = 0 := by
  refine ⟨?_, ?_, ?_, ?_⟩ <;>
    simp [formatPercentage, renderPctStr, renderPct, deltaPct]

/-! ## Entity resolver (qry_data_mapping.apply_mappings)

The sales table handed to apply_mappings (built by qry_data_ingestion) has
string name/entity/document fields and no classification columns, so both
merges bring the mapping's classification columns in fresh.  Missing name
cells are modelled as the empty string; a missing posting date as none. -/

/-- Python's str.strip(): drop whitespace from both ends (structural
recursion over the character list, so concrete instances evaluate). -/
def pyStrip (s : String) : String :=
  String.mk (((s.data.dropWhile Char.isWhitespace).reverse.dropWhile
    Char.isWhitespace).reverse)

/-- Python's str.lower() (ASCII case folding). -/
def pyLower (s : String) : String :=
  String.mk (s.data.map Char.toLower)

/-- Does the character list start with the pattern? -/
def startsWithChars : List Char → List Char → Bool
  | [], _ => true
  | _ :: _, [] => false
  | a :: as, b :: bs => a == b && startsWithChars as bs

/-- Does the pattern occur inside the character list? -/
def hasSubChars : List Char → List Char → Bool
  | pat, [] => pat.isEmpty
  | pat, s@(_ :: rest) => startsWithChars pat s || hasSubChars pat rest

/-- One row of the raw sales table, as consumed by apply_mappings. -/
structure RawRecord where
  employeeName : String
  customerName : String
  companyEntity : String
  documentType : String
  postingDate : Option ℕ
  value : ℚ
deriving Repr, DecidableEq

/-- One row of the mapping table (entity_mappings).  none models a NaN cell. -/
structure MappingRow where
  salesEmployee : Option String
  customerName : Option String
  marketGroup : Option String
  region : Option String
  channelLevel : Option String
  companyGroup : Option String
  salesEmployeeCleaned : Option String
deriving Repr, DecidableEq

/-- Line 41 of qry_data_mapping.py: strip every string cell of the mapping
table. -/
def cleanRow (r : MappingRow) : MappingRow where
  salesEmployee := r.salesEmployee.map pyStrip
  customerName := r.customerName.map pyStrip
  marketGroup := r.marketGroup.map pyStrip
  region := r.region.map pyStrip
  channelLevel := r.channelLevel.map pyStrip
  companyGroup := r.companyGroup.map pyStrip
  salesEmployeeCleaned := r.salesEmployeeCleaned.map pyStrip

/-- Employee-index lookup on the cleaned mapping list: dropna on the key,
drop_duplicates keep-first, then an exact-equality hit (both the left merge
of line 55 and the emp_lookup dict of lines 94-98 reduce to first-match). -/
def lookupEmp (mc : List MappingRow) (name : String) : Option MappingRow :=
  mc.find? (fun row => row.salesEmployee == some name)

/-- Customer-index lookup, same shape (merge of line 81, dict of lines
87-92). -/
def lookupCust (mc : List MappingRow) (name : String) : Option MappingRow :=
  mc.find? (fun row => row.customerName == some name)

/-- Lines 53-54 and 79-80: records with company entity GmbH or AG resolve on
the employee path, all others on the customer path. -/
def isEmpPath (r : RawRecord) : Bool :=
  r.companyEntity == "GmbH" || r.companyEntity == "AG"

/-- The classification columns a record carries after apply_mappings. -/
structure Classification where
  marketGroup : Option String
  region : Option String
  channelLevel : Option String
  companyGroup : Option String
  salesEmployeeCleaned : Option String
deriving Repr, DecidableEq

/-- Classification columns copied from an optional mapping row. -/
def classOfRow (row : Option MappingRow) : Classification where
  marketGroup := row.bind (·.marketGroup)
  region := row.bind (·.region)
  channelLevel := row.bind (·.channelLevel)
  companyGroup := row.bind (·.companyGroup)
  salesEmployeeCleaned := row.bind (·.salesEmployeeCleaned)

/-- Lines 100-114: the fallback pass for a customer-path record.  In order:
trimmed customer name against the customer index, trimmed employee name
against the employee index, trimmed customer name against the employee
index; exact equality only, first hit wins, empty keys are never tried. -/
def fallbackRow (mc : List MappingRow) (r : RawRecord) : Option MappingRow :=
  let custKey := pyStrip r.customerName
  let seName := pyStrip r.employeeName
  if custKey ≠ "" ∧ (lookupCust mc custKey).isSome then lookupCust mc custKey
  else if seName ≠ "" ∧ (lookupEmp mc seName).isSome then lookupEmp mc seName
  else if custKey ≠ "" ∧ (lookupEmp mc custKey).isSome then lookupEmp mc custKey
  else none

/-- The classification a record ends up with after the employee merge
(restricted to GmbH/AG rows), the customer merge (all other rows), the
fallback pass of lines 100-119 (which runs for every customer-path row,
writing the non-null fields of the first fallback hit into the main columns),
and the fillna combine of lines 136-140 (main columns win, the customer-merge
suffix columns fill the holes). -/
def resolveClassification (m : List MappingRow) (r : RawRecord) :
    Classification :=
  let mc := m.map cleanRow
  if isEmpPath r then
    classOfRow (lookupEmp mc r.employeeName)
  else
    let custRow := lookupCust mc r.customerName
    let fb := fallbackRow mc r
    { marketGroup := (fb.bind (·.marketGroup)).orElse
        fun _ => custRow.bind (·.marketGroup)
      region := (fb.bind (·.region)).orElse fun _ => custRow.bind (·.region)
      channelLevel := (fb.bind (·.channelLevel)).orElse
        fun _ => custRow.bind (·.channelLevel)
      companyGroup := (fb.bind (·.companyGroup)).orElse
        fun _ => custRow.bind (·.companyGroup)
      salesEmployeeCleaned := (fb.bind (·.salesEmployeeCleaned)).orElse
        fun _ => custRow.bind (·.salesEmployeeCleaned) }

/-- Lines 63 and 127: an unmapped entity name is tracked only when its
trimmed form is none of "", "nan", "None". -/
def validName (s : String) : Bool :=
  s ≠ "" && s ≠ "nan" && s ≠ "None"

/-- The unmapped-ledger key a record generates, if any: employee-typed
(flag true) for GmbH/AG rows whose employee merge left Market_Group null
(line 58), customer-typed for other rows whose Market_Group main column is
still null after the fallback pass (line 122). -/
def unmappedKey (m : List MappingRow) (r : RawRecord) :
    Option (Bool × String) :=
  let mc := m.map cleanRow
  if isEmpPath r then
    let n := pyStrip r.employeeName
    if ((lookupEmp mc r.employeeName).bind (·.marketGroup)) = none ∧
        validName n then some (true, n) else none
  else
    let n := pyStrip r.customerName
    if ((fallbackRow mc r).bind (·.marketGroup)) = none ∧
        validName n then some (false, n) else none

/-- One accumulated entry of the unmapped ledger: occurrence count and the
posting dates seen (lines 64-67 and 128-131). -/
structure LedgerEntry where
  count : ℕ
  dates : List ℕ
deriving Repr, DecidableEq

/-- The ledger in insertion order, as the defaultdict accumulates it. -/
abbrev Ledger := List ((Bool × String) × LedgerEntry)

/-- Account one record under a key: bump the count, append the posting date
when present; first occurrence appends a fresh entry. -/
def ledgerAdd (led : Ledger) (k : Bool × String) (d : Option ℕ) : Ledger :=
  match led with
  | [] => [(k, ⟨1, d.toList⟩)]
  | (k', e) :: rest =>
    if k' = k then (k', ⟨e.count + 1, e.dates ++ d.toList⟩) :: rest
    else (k', e) :: ledgerAdd rest k d

/-- Account one record in a tracking loop that keeps entries of one type. -/
def ledgerStep (m : List MappingRow) (keep : Bool) (led : Ledger)
    (r : RawRecord) : Ledger :=
  match unmappedKey m r with
  | some (t, n) => if t = keep then ledgerAdd led (t, n) r.postingDate else led
  | none => led

/-- One tracking loop over the sales table, keeping only entries of the given
type: `keep = true` is the employee loop of lines 61-67, `keep = false` the
customer loop of lines 125-131. -/
def ledgerPass (m : List MappingRow) (keep : Bool) (led : Ledger)
    (rs : List RawRecord) : Ledger :=
  rs.foldl (ledgerStep m keep) led

/-- The full unmapped ledger: the employee loop runs over the whole table
first, then the customer loop. -/
def buildLedger (m : List MappingRow) (rs : List RawRecord) : Ledger :=
  ledgerPass m false (ledgerPass m true [] rs) rs

/-- Ledger lookup by key. -/
def ledgerFind (led : Ledger) (k : Bool × String) : Option LedgerEntry :=
  (led.find? (fun p => p.1 = k)).map (·.2)

/-- A sales row together with its final classification columns. -/
structure ResolvedRecord where
  raw : RawRecord
  cls : Classification
deriving Repr, DecidableEq

/-- Case-sensitive substring test (Python's `in` on strings). -/
def strContains (s pat : String) : Bool :=
  hasSubChars pat.data s.data

/-- Line 159's mask: `str.contains('Interco', case=False)`. -/
def containsInterco (s : String) : Bool :=
  strContains (pyLower s) "interco"

/-- Line 151: drop rows where the company entity is Export and the document
type is not AR. -/
def passExportFilter (x : ResolvedRecord) : Bool :=
  !(x.raw.companyEntity == "Export" && x.raw.documentType != "AR")

/-- Line 155: drop rows whose region resolved to Switzerland unless the
company entity is AG. -/
def passSwissFilter (x : ResolvedRecord) : Bool :=
  !(x.cls.region == some "Switzerland" && x.raw.companyEntity != "AG")

/-- Line 159: drop rows whose customer name contains "Interco"
case-insensitively (null names are kept, na=False). -/
def passIntercoFilter (x : ResolvedRecord) : Bool :=
  !(containsInterco x.raw.customerName)

/-- Lines 161-169: rename the legacy eCommerce label. -/
def normalizeLabel (s : String) : String :=
  if s == "eCommerce (excl. USA)" then "eCommerce EU (incl. UK)" else s

/-- The label rename applied to the Channel_Level, Sales_Employee_Cleaned
and Region columns. -/
def normalizeCls (c : Classification) : Classification :=
  { c with
    channelLevel := c.channelLevel.map normalizeLabel
    salesEmployeeCleaned := c.salesEmployeeCleaned.map normalizeLabel
    region := c.region.map normalizeLabel }

/-- apply_mappings: resolve every record, build the unmapped ledger from the
full record set, then apply the Export/AR, Switzerland/AG and Interco filters
in that order, then normalize the legacy label.  Returns the surviving
records and the ledger. -/
def applyMappings (m : List MappingRow) (rs : List RawRecord) :
    List ResolvedRecord × Ledger :=
  let resolved := rs.map (fun r => ResolvedRecord.mk r (resolveClassification m r))
  let led := buildLedger m rs
  let f1 := resolved.filter passExportFilter
  let f2 := f1.filter passSwissFilter
  let f3 := f2.filter passIntercoFilter
  (f3.map (fun x => ResolvedRecord.mk x.raw (normalizeCls x.cls)), led)

/-! ### Resolver theorems -/

/-- C2, counterexample: the claim prescribes a fallback pass, for records on
both resolution paths, that tries the employee name against the customer
index.  In scenario one a GmbH record whose employee name "B" has an exact
customer-index entry stays unresolved: employee-path records get no fallback
at all.  In scenario two a customer-path record whose employee name "E" has
an exact customer-index entry also stays unresolved: the code never tries the
employee name against the customer index. -/
theorem c2_fallback_counterexample :
    (resolveClassification [⟨none, some "B", some "EU", none, none, none, none⟩]
        ⟨"B", "X", "GmbH", "AR", none, 1⟩).marketGroup = none ∧
      (lookupCust ([(⟨none, some "B", some "EU", none, none, none,
          none⟩ : MappingRow)].map cleanRow) (pyStrip "B")).isSome = true ∧
      (resolveClassification [⟨none, some "E", some "US", none, none, none, none⟩]
        ⟨"E", "C", "UK", "AR", none, 1⟩).marketGroup = none ∧
      (lookupCust ([(⟨none, some "E", some "US", none, none, none,
          none⟩ : MappingRow)].map cleanRow) (pyStrip "E")).isSome = true := by
  decide

/-- C2, amended: the one-shot fallback pass applies only to records on the
customer path (company entity not in GmbH/AG); it tries, in order, the
trimmed customer name against the customer index, the trimmed employee name
against the employee index, and the trimmed customer name against the
employee index, using exact string equality only (after trimming, no
similarity scoring), accepting the first match; the accepted row's non-null
fields take precedence over the primary customer merge.  Employee-path
records get no fallback: their classification is exactly the primary
employee-index lookup. -/
theorem c2_fallback_scope_amended (m : List MappingRow) (r : RawRecord) :
    (isEmpPath r = true →
      resolveClassification m r =
        classOfRow (lookupEmp (m.map cleanRow) r.employeeName)) ∧
    (isEmpPath r = false →
      (∀ row, pyStrip r.customerName ≠ "" →
          lookupCust (m.map cleanRow) (pyStrip r.customerName) = some row →
          fallbackRow (m.map cleanRow) r = some row) ∧
      ((pyStrip r.customerName = "" ∨
          lookupCust (m.map cleanRow) (pyStrip r.customerName) = none) →
        ∀ row, pyStrip r.employeeName ≠ "" →
          lookupEmp (m.map cleanRow) (pyStrip r.employeeName) = some row →
          fallbackRow (m.map cleanRow) r = some row) ∧
      ((pyStrip r.customerName = "" ∨
          lookupCust (m.map cleanRow) (pyStrip r.customerName) = none) →
        (pyStrip r.employeeName = "" ∨
          lookupEmp (m.map cleanRow) (pyStrip r.employeeName) = none) →
        ∀ row, pyStrip r.customerName ≠ "" →
          lookupEmp (m.map cleanRow) (pyStrip r.customerName) = some row →
          fallbackRow (m.map cleanRow) r = some row) ∧
      (resolveClassification m r).marketGroup =
        ((fallbackRow (m.map cleanRow) r).bind (·.marketGroup)).orElse
          (fun _ => (lookupCust (m.map cleanRow)
            r.customerName).bind (·.marketGroup))) := by
  constructor
  · intro h
    simp [resolveClassification, h]
  · intro h
    refine ⟨?_, ?_, ?_, ?_⟩
    · intro row hne hc
      rw [fallbackRow, if_pos ⟨hne, by rw [hc]; rfl⟩, hc]
    · rintro hfst row hne he
      have h1 : ¬(pyStrip r.customerName ≠ "" ∧
          (lookupCust (m.map cleanRow) (pyStrip r.customerName)).isSome) := by
        rcases hfst with h' | h'
        · exact fun hx => hx.1 h'
        · exact fun hx => by rw [h'] at hx; simp at hx
      rw [fallbackRow, if_neg h1, if_pos ⟨hne, by rw [he]; rfl⟩, he]
    · rintro hfst hsnd row hne he
      have h1 : ¬(pyStrip r.customerName ≠ "" ∧
          (lookupCust (m.map cleanRow) (pyStrip r.customerName)).isSome) := by
        rcases hfst with h' | h'
        · exact fun hx => hx.1 h'
        · exact fun hx => by rw [h'] at hx; simp at hx
      have h2 : ¬(pyStrip r.employeeName ≠ "" ∧
          (lookupEmp (m.map cleanRow) (pyStrip r.employeeName)).isSome) := by
        rcases hsnd with h' | h'
        · exact fun hx => hx.1 h'
        · exact fun hx => by rw [h'] at hx; simp at hx
      rw [fallbackRow, if_neg h1, if_neg h2, if_pos ⟨hne, by rw [he]; rfl⟩, he]
    · simp [resolveClassification, h]

/-- Witness for C2's amended theorem: a customer-path record whose customer
name misses both indices but whose trimmed employee name " E " hits the
employee index exactly. -/
theorem c2_fallback_scope_amended_witness :
    isEmpPath (⟨" E ", "C", "UK", "AR", none, 1⟩ : RawRecord) = false ∧
      fallbackRow ([(⟨some "E", none, some "EU", none, none, none,
          none⟩ : MappingRow)].map cleanRow) ⟨" E ", "C", "UK", "AR", none, 1⟩ =
        some ⟨some "E", none, some "EU", none, none, none, none⟩ :=
  ⟨by decide,
    (((c2_fallback_scope_amended
        [⟨some "E", none, some "EU", none, none, none, none⟩]
        ⟨" E ", "C", "UK", "AR", none, 1⟩).2 (by decide)).2.1
      (Or.inr (by decide)) _ (by decide) (by decide))⟩

/-- The label rename cannot manufacture the value "Switzerland". -/
theorem normalizeLabel_eq_switzerland {s : String}
    (h : normalizeLabel s = "Switzerland") : s = "Switzerland" := by
  unfold normalizeLabel at h
  split at h
  · exact absurd h (by decide)
  · exact h

/-- C4: every record surviving apply_mappings satisfies all three filter
predicates, whether or not it was resolved: no Export row with a non-AR
document type, no Switzerland row outside the AG entity, and no customer
name containing "Interco" case-insensitively.  The filters are applied, in
that fixed order, to the full resolved-plus-unresolved record set (the
output is the filter chain over every input record's resolution). -/
theorem c4_filters_on_full_set (m : List MappingRow) (rs : List RawRecord) :
    ∀ x ∈ (applyMappings m rs).1,
      (x.raw.companyEntity = "Export" → x.raw.documentType = "AR") ∧
        (x.cls.region = some "Switzerland" → x.raw.companyEntity = "AG") ∧
        containsInterco x.raw.customerName = false := by
  intro x hx
  simp only [applyMappings, List.mem_map] at hx
  obtain ⟨y, hy, rfl⟩ := hx
  rw [List.mem_filter] at hy
  obtain ⟨hy2, hInt⟩ := hy
  rw [List.mem_filter] at hy2
  obtain ⟨hy1, hSwi⟩ := hy2
  rw [List.mem_filter] at hy1
  obtain ⟨_, hExp⟩ := hy1
  refine ⟨?_, ?_, ?_⟩
  · intro hent
    simp only [passExportFilter, Bool.not_eq_true', Bool.and_eq_false_iff,
      beq_iff_eq, bne, Bool.not_eq_false', beq_eq_false_iff_ne, ne_eq] at hExp
    rcases hExp with h' | h'
    · exact absurd hent h'
    · simpa using h'
  · intro hreg
    simp only [passSwissFilter, Bool.not_eq_true', Bool.and_eq_false_iff,
      beq_iff_eq, bne, Bool.not_eq_false', beq_eq_false_iff_ne, ne_eq] at hSwi
    have hyreg : y.cls.region = some "Switzerland" := by
      simp only [normalizeCls] at hreg
      rcases hr : y.cls.region with _ | v
      · rw [hr] at hreg; simp at hreg
      · rw [hr] at hreg
        simp only [Option.map_some'] at hreg
        rw [Option.some_inj] at hreg
        rw [normalizeLabel_eq_switzerland hreg]
    rcases hSwi with h' | h'
    · exact absurd hyreg h'
    · simpa using h'
  · simp only [passIntercoFilter, Bool.not_eq_true'] at hInt
    exact hInt

/-- Witness for C4 at a one-record table: the surviving Export/AR record
satisfies all three predicates. -/
theorem c4_filters_on_full_set_witness :
    (⟨⟨"", "C", "Export", "AR", none, 1⟩, ⟨none, none, none, none, none⟩⟩ :
        ResolvedRecord) ∈
      (applyMappings [] [⟨"", "C", "Export", "AR", none, 1⟩]).1 ∧
      ((⟨⟨"", "C", "Export", "AR", none, 1⟩, ⟨none, none, none, none, none⟩⟩ :
          ResolvedRecord).raw.companyEntity = "Export" →
        (⟨⟨"", "C", "Export", "AR", none, 1⟩, ⟨none, none, none, none, none⟩⟩ :
          ResolvedRecord).raw.documentType = "AR") :=
  ⟨by decide,
    fun h => ((c4_filters_on_full_set [] [⟨"", "C", "Export", "AR", none, 1⟩]
      _ (by decide)).1 h)⟩

/-! ### Unmapped-ledger theorems (C7) -/

/-- Python's `min(dates)` over a non-empty list. -/
def minDate : List ℕ → Option ℕ
  | [] => none
  | d :: ds => some (ds.foldl min d)

/-- Python's `max(dates)` over a non-empty list. -/
def maxDate : List ℕ → Option ℕ
  | [] => none
  | d :: ds => some (ds.foldl max d)

theorem foldl_min_le_init (l : List ℕ) (a : ℕ) : l.foldl min a ≤ a := by
  induction l generalizing a with
  | nil => exact le_refl a
  | cons x xs ih => exact le_trans (ih (min a x)) (min_le_left a x)

theorem foldl_min_le_mem (l : List ℕ) (a d : ℕ) (h : d ∈ l) :
    l.foldl min a ≤ d := by
  induction l generalizing a with
  | nil => cases h
  | cons x xs ih =>
    rcases List.mem_cons.mp h with rfl | h'
    · exact le_trans (foldl_min_le_init xs (min a d)) (min_le_right a d)
    · exact ih (min a x) h'

theorem init_le_foldl_max (l : List ℕ) (a : ℕ) : a ≤ l.foldl max a := by
  induction l generalizing a with
  | nil => exact le_refl a
  | cons x xs ih => exact le_trans (le_max_left a x) (ih (max a x))

theorem mem_le_foldl_max (l : List ℕ) (a d : ℕ) (h : d ∈ l) :
    d ≤ l.foldl max a := by
  induction l generalizing a with
  | nil => cases h
  | cons x xs ih =>
    rcases List.mem_cons.mp h with rfl | h'
    · exact le_trans (le_max_right a d) (init_le_foldl_max xs (max a d))
    · exact ih (max a x) h'

theorem minDate_le_mem (l : List ℕ) (d : ℕ) (h : d ∈ l) :
    ∃ lo, minDate l = some lo ∧ lo ≤ d := by
  cases l with
  | nil => cases h
  | cons x xs =>
    refine ⟨xs.foldl min x, rfl, ?_⟩
    rcases List.mem_cons.mp h with rfl | h'
    · exact foldl_min_le_init xs d
    · exact foldl_min_le_mem xs x d h'

theorem mem_le_maxDate (l : List ℕ) (d : ℕ) (h : d ∈ l) :
    ∃ hi, maxDate l = some hi ∧ d ≤ hi := by
  cases l with
  | nil => cases h
  | cons x xs =>
    refine ⟨xs.foldl max x, rfl, ?_⟩
    rcases List.mem_cons.mp h with rfl | h'
    · exact init_le_foldl_max xs d
    · exact mem_le_foldl_max xs x d h'

/-- The optional posting dates a key collects from the record list. -/
def contribDates (m : List MappingRow) (rs : List RawRecord)
    (k : Bool × String) : List (Option ℕ) :=
  rs.filterMap (fun r =>
    if unmappedKey m r = some k then some r.postingDate else none)

/-- Flatten the present dates. -/
def presentDates (l : List (Option ℕ)) : List ℕ := l.filterMap id

/-- Extending an optional ledger entry with a batch of contributions. -/
def extendEntry (oe : Option LedgerEntry) (l : List (Option ℕ)) :
    Option LedgerEntry :=
  match oe with
  | some e => some ⟨e.count + l.length, e.dates ++ presentDates l⟩
  | none => if l.isEmpty then none else some ⟨l.length, presentDates l⟩

theorem ledgerFind_ledgerAdd_same (led : Ledger) (k : Bool × String)
    (d : Option ℕ) :
    ledgerFind (ledgerAdd led k d) k =
      some (match ledgerFind led k with
        | some e => ⟨e.count + 1, e.dates ++ d.toList⟩
        | none => ⟨1, d.toList⟩) := by
  induction led with
  | nil => simp [ledgerAdd, ledgerFind]
  | cons p rest ih =>
    obtain ⟨k', e⟩ := p
    by_cases hk : k' = k
    · subst hk
      simp [ledgerAdd, ledgerFind]
    · simp only [ledgerAdd, if_neg hk]
      rw [show ledgerFind ((k', e) :: ledgerAdd rest k d) k =
          ledgerFind (ledgerAdd rest k d) k by
        simp [ledgerFind, List.find?_cons, hk]]
      rw [show ledgerFind ((k', e) :: rest) k = ledgerFind rest k by
        simp [ledgerFind, List.find?_cons, hk]]
      exact ih

theorem ledgerFind_ledgerAdd_other (led : Ledger) (k k' : Bool × String)
    (d : Option ℕ) (h : k' ≠ k) :
    ledgerFind (ledgerAdd led k d) k' = ledgerFind led k' := by
  have h' : k ≠ k' := fun hc => h hc.symm
  induction led with
  | nil => simp [ledgerAdd, ledgerFind, List.find?_cons, h']
  | cons p rest ih =>
    obtain ⟨k'', e⟩ := p
    by_cases hk : k'' = k
    · subst hk
      simp [ledgerAdd, ledgerFind, List.find?_cons, h']
    · simp only [ledgerAdd, if_neg hk]
      by_cases hk2 : k'' = k'
      · subst hk2
        simp [ledgerFind, List.find?_cons]
      · rw [show ledgerFind ((k'', e) :: ledgerAdd rest k d) k' =
            ledgerFind (ledgerAdd rest k d) k' by
          simp [ledgerFind, List.find?_cons, hk2]]
        rw [show ledgerFind ((k'', e) :: rest) k' = ledgerFind rest k' by
          simp [ledgerFind, List.find?_cons, hk2]]
        exact ih

theorem presentDates_cons (d : Option ℕ) (l : List (Option ℕ)) :
    presentDates (d :: l) = d.toList ++ presentDates l := by
  cases d <;> simp [presentDates, Option.toList]

theorem extendEntry_step (oe : Option LedgerEntry) (d : Option ℕ)
    (l : List (Option ℕ)) :
    extendEntry (some (match oe with
        | some e => LedgerEntry.mk (e.count + 1) (e.dates ++ d.toList)
        | none => LedgerEntry.mk 1 d.toList)) l =
      extendEntry oe (d :: l) := by
  cases oe with
  | some e =>
    simp only [extendEntry, presentDates_cons, List.length_cons,
      Option.some.injEq, LedgerEntry.mk.injEq]
    exact ⟨by omega, by simp [List.append_assoc]⟩
  | none =>
    cases d <;>
      simp [extendEntry, presentDates, Option.toList, Nat.add_comm]

theorem ledgerFind_ledgerPass (m : List MappingRow) (keep : Bool)
    (k : Bool × String) (rs : List RawRecord) :
    ∀ led, ledgerFind (ledgerPass m keep led rs) k =
      if k.1 = keep then extendEntry (ledgerFind led k) (contribDates m rs k)
      else ledgerFind led k := by
  induction rs with
  | nil =>
    intro led
    simp only [ledgerPass, List.foldl_nil, contribDates, List.filterMap_nil]
    split
    · cases h : ledgerFind led k <;> simp [extendEntry, presentDates]
    · rfl
  | cons r rest ih =>
    intro led
    have hPass : ∀ l' : Ledger,
        List.foldl (ledgerStep m keep) l' rest = ledgerPass m keep l' rest :=
      fun _ => rfl
    simp only [ledgerPass, List.foldl_cons]
    rw [hPass]
    rcases hu : unmappedKey m r with _ | ⟨t, n⟩
    · have hstep : ledgerStep m keep led r = led := by
        simp [ledgerStep, hu]
      have hcon : contribDates m (r :: rest) k = contribDates m rest k := by
        simp [contribDates, hu]
      rw [hstep, hcon]
      exact ih led
    · by_cases ht : t = keep
      · have hstep : ledgerStep m keep led r =
            ledgerAdd led (t, n) r.postingDate := by
          simp [ledgerStep, hu, ht]
        rw [hstep]
        by_cases hk : (t, n) = k
        · have hcon : contribDates m (r :: rest) k =
              r.postingDate :: contribDates m rest k := by
            simp [contribDates, hu, hk]
          rw [ih (ledgerAdd led (t, n) r.postingDate), hcon]
          have hk1 : k.1 = keep := by rw [← hk]; exact ht
          rw [if_pos hk1, if_pos hk1, hk]
          rw [ledgerFind_ledgerAdd_same led k r.postingDate]
          exact extendEntry_step (ledgerFind led k) r.postingDate
            (contribDates m rest k)
        · have hcon : contribDates m (r :: rest) k = contribDates m rest k := by
            simp [contribDates, hu, hk]
          rw [ih (ledgerAdd led (t, n) r.postingDate), hcon]
          rw [ledgerFind_ledgerAdd_other led (t, n) k r.postingDate
            (fun h => hk h.symm)]
      · have hstep : ledgerStep m keep led r = led := by
          simp [ledgerStep, hu, ht]
        rw [hstep, ih led]
        by_cases hk : (t, n) = k
        · have : ¬ k.1 = keep := by rw [← hk]; exact ht
          rw [if_neg this, if_neg this]
        · have hcon : contribDates m (r :: rest) k = contribDates m rest k := by
            simp [contribDates, hu, hk]
          rw [hcon]

theorem ledgerFind_buildLedger (m : List MappingRow) (rs : List RawRecord)
    (k : Bool × String) :
    ledgerFind (buildLedger m rs) k = extendEntry none (contribDates m rs k) := by
  unfold buildLedger
  rw [ledgerFind_ledgerPass m false k rs]
  rcases k with ⟨t, n⟩
  by_cases ht : t = false
  · subst ht
    rw [if_pos rfl]
    rw [ledgerFind_ledgerPass m true (false, n) rs]
    rw [if_neg (show ¬((false, n) : Bool × String).1 = true by simp)]
    simp [ledgerFind]
  · have ht' : t = true := by cases t <;> simp_all
    subst ht'
    rw [if_neg (show ¬((true, n) : Bool × String).1 = false by simp)]
    rw [ledgerFind_ledgerPass m true (true, n) rs]
    rw [if_pos rfl]
    simp [ledgerFind]

theorem contribDates_length (m : List MappingRow) (rs : List RawRecord)
    (k : Bool × String) :
    (contribDates m rs k).length =
      (rs.filter (fun x => unmappedKey m x = some k)).length := by
  induction rs with
  | nil => rfl
  | cons r rest ih =>
    by_cases h : unmappedKey m r = some k
    · simpa [contribDates, List.filterMap_cons, h, List.filter_cons] using ih
    · simpa [contribDates, List.filterMap_cons, h, List.filter_cons] using ih

/-- C7: the unmapped ledger returned by apply_mappings reflects unmapped
status computed before the Export/Switzerland/Interco filters: for every
input record that is still unresolved after the lookup passes and carries a
valid entity name (so `unmappedKey` assigns it a ledger key), the returned
ledger has an entry under that key whose count is the number of such records
(hence positive), and whose first/last-seen range covers the record's posting
date when one is present.  No filter appears in any hypothesis: the entry is
present even when the record is dropped from the returned record set. -/
theorem c7_ledger_before_filters (m : List MappingRow) (rs : List RawRecord)
    (r : RawRecord) (k : Bool × String) (hr : r ∈ rs)
    (hk : unmappedKey m r = some k) :
    ∃ e, ledgerFind (applyMappings m rs).2 k = some e ∧
      e.count = (rs.filter (fun x => unmappedKey m x = some k)).length ∧
      0 < e.count ∧
      ∀ d, r.postingDate = some d →
        ∃ lo hi, minDate e.dates = some lo ∧ maxDate e.dates = some hi ∧
          lo ≤ d ∧ d ≤ hi := by
  have hled : (applyMappings m rs).2 = buildLedger m rs := rfl
  rw [hled, ledgerFind_buildLedger m rs k]
  have hmem : (some r.postingDate) ∈ (contribDates m rs k).map some ∨
      r.postingDate ∈ contribDates m rs k := by
    right
    simp only [contribDates, List.mem_filterMap]
    exact ⟨r, hr, by rw [hk]; simp⟩
  have hne : contribDates m rs k ≠ [] := by
    rcases hmem with h | h
    · intro hc; rw [hc] at h; simp at h
    · intro hc; rw [hc] at h; simp at h
  have hcount : (contribDates m rs k).length =
      (rs.filter (fun x => unmappedKey m x = some k)).length :=
    contribDates_length m rs k
  refine ⟨⟨(contribDates m rs k).length, presentDates (contribDates m rs k)⟩,
    ?_, hcount, ?_, ?_⟩
  · simp [extendEntry, hne]
  · exact List.length_pos.mpr hne
  · intro d hd
    have hdm : d ∈ presentDates (contribDates m rs k) := by
      simp only [presentDates, List.mem_filterMap]
      refine ⟨some d, ?_, rfl⟩
      simp only [contribDates, List.mem_filterMap]
      exact ⟨r, hr, by rw [hk, ← hd]; simp⟩
    obtain ⟨lo, hlo, hlod⟩ := minDate_le_mem _ d hdm
    obtain ⟨hi, hhi, hdhi⟩ := mem_le_maxDate _ d hdm
    exact ⟨lo, hi, hlo, hhi, hlod, hdhi⟩

/-- Witness for C7: an unmapped customer record whose name contains
"Interco" is dropped from the returned record set by the third filter, yet
its ledger entry is present with count 1 and its posting date as both ends
of the seen range. -/
theorem c7_ledger_before_filters_witness :
    (⟨"A", "Interco T", "UK", "AR", some 5, 1⟩ : RawRecord) ∈
        [(⟨"A", "Interco T", "UK", "AR", some 5, 1⟩ : RawRecord)] ∧
      unmappedKey [] ⟨"A", "Interco T", "UK", "AR", some 5, 1⟩ =
        some (false, "Interco T") ∧
      (applyMappings [] [⟨"A", "Interco T", "UK", "AR", some 5, 1⟩]).1 = [] ∧
      ∃ e, ledgerFind
          (applyMappings [] [⟨"A", "Interco T", "UK", "AR", some 5, 1⟩]).2
          (false, "Interco T") = some e ∧
        e.count = ([(⟨"A", "Interco T", "UK", "AR", some 5, 1⟩ :
          RawRecord)].filter (fun x =>
            unmappedKey [] x = some (false, "Interco T"))).length ∧
        0 < e.count ∧
        ∀ d, (some 5 : Option ℕ) = some d →
          ∃ lo hi, minDate e.dates = some lo ∧ maxDate e.dates = some hi ∧
            lo ≤ d ∧ d ≤ hi :=
  ⟨by decide, by decide, by decide,
    c7_ledger_before_filters [] [⟨"A", "Interco T", "UK", "AR", some 5, 1⟩]
      ⟨"A", "Interco T", "UK", "AR", some 5, 1⟩ (false, "Interco T")
      (by decide) (by decide)⟩


/-! ### Duplicate-key theorems (C8) -/

theorem lookupEmp_append_dup (m : List MappingRow) (d : MappingRow)
    (q : String)
    (hE : ∀ s, d.salesEmployee = some s →
      ∃ e ∈ m, (cleanRow e).salesEmployee = some (pyStrip s)) :
    lookupEmp ((m ++ [d]).map cleanRow) q = lookupEmp (m.map cleanRow) q := by
  unfold lookupEmp
  rw [List.map_append, List.find?_append]
  cases h : (m.map cleanRow).find? (fun row => row.salesEmployee == some q) with
  | some row => rfl
  | none =>
    simp only [Option.or]
    rcases hd : (cleanRow d).salesEmployee with _ | v
    · simp [List.find?_cons, hd]
    · by_cases hv : v = q
      · subst hv
        obtain ⟨s, hs, hps⟩ : ∃ s, d.salesEmployee = some s ∧ pyStrip s = v := by
          rcases hds : d.salesEmployee with _ | s
          · rw [cleanRow, hds] at hd; simp at hd
          · rw [cleanRow, hds] at hd
            simp only [Option.map_some'] at hd
            exact ⟨s, rfl, Option.some_inj.mp hd⟩
        obtain ⟨e, hem, he⟩ := hE s hs
        rw [List.find?_eq_none] at h
        exact absurd (by simp [he, hps] :
            ((cleanRow e).salesEmployee == some v) = true)
          (h (cleanRow e) (List.mem_map_of_mem cleanRow hem))
      · simp [List.find?_cons, hd, hv]

theorem lookupCust_append_dup (m : List MappingRow) (d : MappingRow)
    (q : String)
    (hC : ∀ s, d.customerName = some s →
      ∃ e ∈ m, (cleanRow e).customerName = some (pyStrip s)) :
    lookupCust ((m ++ [d]).map cleanRow) q = lookupCust (m.map cleanRow) q := by
  unfold lookupCust
  rw [List.map_append, List.find?_append]
  cases h : (m.map cleanRow).find? (fun row => row.customerName == some q) with
  | some row => rfl
  | none =>
    simp only [Option.or]
    rcases hd : (cleanRow d).customerName with _ | v
    · simp [List.find?_cons, hd]
    · by_cases hv : v = q
      · subst hv
        obtain ⟨s, hs, hps⟩ : ∃ s, d.customerName = some s ∧ pyStrip s = v := by
          rcases hds : d.customerName with _ | s
          · rw [cleanRow, hds] at hd; simp at hd
          · rw [cleanRow, hds] at hd
            simp only [Option.map_some'] at hd
            exact ⟨s, rfl, Option.some_inj.mp hd⟩
        obtain ⟨e, hem, he⟩ := hC s hs
        rw [List.find?_eq_none] at h
        exact absurd (by simp [he, hps] :
            ((cleanRow e).customerName == some v) = true)
          (h (cleanRow e) (List.mem_map_of_mem cleanRow hem))
      · simp [List.find?_cons, hd, hv]

theorem fallbackRow_congr (mc mc' : List MappingRow) (r : RawRecord)
    (h1 : lookupCust mc' (pyStrip r.customerName) =
      lookupCust mc (pyStrip r.customerName))
    (h2 : lookupEmp mc' (pyStrip r.employeeName) =
      lookupEmp mc (pyStrip r.employeeName))
    (h3 : lookupEmp mc' (pyStrip r.customerName) =
      lookupEmp mc (pyStrip r.customerName)) :
    fallbackRow mc' r = fallbackRow mc r := by
  unfold fallbackRow
  simp only [h1, h2, h3]

/-- C8: resolution is keep-first on duplicate mapping keys.  Appending a
mapping row whose employee key and customer key (when present) already occur
earlier in the table changes nothing: every record resolves to the same
classification, gets the same unmapped-ledger key, and apply_mappings returns
identical output and ledger for every record set. -/
theorem c8_duplicate_keys_keep_first (m : List MappingRow) (d : MappingRow)
    (hE : ∀ s, d.salesEmployee = some s →
      ∃ e ∈ m, (cleanRow e).salesEmployee = some (pyStrip s))
    (hC : ∀ s, d.customerName = some s →
      ∃ e ∈ m, (cleanRow e).customerName = some (pyStrip s)) :
    (∀ r, resolveClassification (m ++ [d]) r = resolveClassification m r) ∧
      (∀ r, unmappedKey (m ++ [d]) r = unmappedKey m r) ∧
      (∀ rs, applyMappings (m ++ [d]) rs = applyMappings m rs) := by
  have hfb : ∀ r, fallbackRow ((m ++ [d]).map cleanRow) r =
      fallbackRow (m.map cleanRow) r := fun r =>
    fallbackRow_congr (m.map cleanRow) ((m ++ [d]).map cleanRow) r
      (lookupCust_append_dup m d _ hC) (lookupEmp_append_dup m d _ hE)
      (lookupEmp_append_dup m d _ hE)
  have hres : ∀ r, resolveClassification (m ++ [d]) r =
      resolveClassification m r := by
    intro r
    unfold resolveClassification
    by_cases h : isEmpPath r
    · rw [if_pos h, if_pos h, lookupEmp_append_dup m d _ hE]
    · rw [if_neg h, if_neg h, lookupCust_append_dup m d _ hC, hfb r]
  have hkey : ∀ r, unmappedKey (m ++ [d]) r = unmappedKey m r := by
    intro r
    unfold unmappedKey
    by_cases h : isEmpPath r
    · rw [if_pos h, if_pos h, lookupEmp_append_dup m d _ hE]
    · rw [if_neg h, if_neg h, hfb r]
  refine ⟨hres, hkey, ?_⟩
  intro rs
  unfold applyMappings
  have hled : buildLedger (m ++ [d]) rs = buildLedger m rs := by
    unfold buildLedger ledgerPass
    have hstep : ∀ keep : Bool, ledgerStep (m ++ [d]) keep = ledgerStep m keep := by
      intro keep
      funext led r
      unfold ledgerStep
      rw [hkey r]
    rw [hstep true, hstep false]
  rw [hled]
  have hmapped : rs.map (fun r =>
      ResolvedRecord.mk r (resolveClassification (m ++ [d]) r)) =
      rs.map (fun r => ResolvedRecord.mk r (resolveClassification m r)) :=
    List.map_congr_left (fun r _ => by rw [hres r])
  rw [hmapped]

/-- Witness for C8: a duplicate employee key "A" with different
classification is ignored; the record still resolves to the first row. -/
theorem c8_duplicate_keys_keep_first_witness :
    (∀ s, (⟨some "A", none, some "US", none, none, none,
        none⟩ : MappingRow).salesEmployee = some s →
      ∃ e ∈ [(⟨some "A", none, some "EU", none, none, none,
        none⟩ : MappingRow)], (cleanRow e).salesEmployee = some (pyStrip s)) ∧
      resolveClassification
          [⟨some "A", none, some "EU", none, none, none, none⟩,
            ⟨some "A", none, some "US", none, none, none, none⟩]
          ⟨"A", "", "GmbH", "AR", none, 1⟩ =
        resolveClassification
          [⟨some "A", none, some "EU", none, none, none, none⟩]
          ⟨"A", "", "GmbH", "AR", none, 1⟩ ∧
      (resolveClassification
          [⟨some "A", none, some "EU", none, none, none, none⟩]
          ⟨"A", "", "GmbH", "AR", none, 1⟩).marketGroup = some "EU" := by
  refine ⟨?_, ?_, by decide⟩
  · intro s hs
    exact ⟨_, List.mem_singleton_self _, by
      rw [show s = "A" from Option.some_inj.mp hs.symm]; decide⟩
  · exact (c8_duplicate_keys_keep_first
      [⟨some "A", none, some "EU", none, none, none, none⟩]
      ⟨some "A", none, some "US", none, none, none, none⟩
      (fun s hs => ⟨_, List.mem_singleton_self _, by
        rw [show s = "A" from Option.some_inj.mp hs.symm]; decide⟩)
      (fun s hs => by simp at hs)).1 ⟨"A", "", "GmbH", "AR", none, 1⟩


/-! ## Receivables aggregation (ManagementReportGenerator.calculate_report)

The walk consumes the AR-filtered, kEUR-converted sales table, the
current-month budget slice and the prior-year-month slice prepared by
_prepare_data, and a declarative section list from the JSON config. -/

/-- One resolved sales row as calculate_report reads it. -/
structure SalesRow where
  companyGroup : Option String
  marketGroup : Option String
  region : Option String
  channelLevel : Option String
  kEUR : ℚ
deriving Repr, DecidableEq

/-- One budget/prior row of the current reporting month. -/
structure RefRow where
  companyGroup : Option String
  marketGroup : Option String
  region : Option String
  channelLevel : Option String
  valKEUR : ℚ
  valKUSD : ℚ
deriving Repr, DecidableEq

/-- The data calculate_report consumes; hasKUSD records whether the budget
slice has a Value_kUSD column. -/
structure RepData where
  sales : List SalesRow
  budgetMonth : List RefRow
  priorMonth : List RefRow
  hasKUSD : Bool
deriving Repr, DecidableEq

/-- One declared item of a regular section; budgetRegionMap is some v when
the JSON item carries a budget_region_map key. -/
structure RItem where
  label : String
  filterValue : Option String
  isFallback : Bool
  budgetRegionMap : Option String
deriving Repr, DecidableEq

/-- One declared node of the receivables section tree.  For component-total
nodes, components models the title list the code reads from the node's
items-or-components field. -/
structure RSection where
  title : String
  isGrandTotal : Bool
  isUnmapped : Bool
  isTotal : Bool
  components : List String
  companyGroup : Option String
  marketGroup : Option String
  sectionType : Option String
  items : List RItem
  showTotal : Bool
deriving Repr, DecidableEq

/-- pandas `Series == scalar` where either side may be missing: a null cell
or a missing scalar never matches. -/
def optEqS (cell scalar : Option String) : Bool :=
  match cell, scalar with
  | some x, some y => x == y
  | _, _ => false

/-- Python truthiness of section.get('market_group'). -/
def optTruthy : Option String → Bool
  | some s => !(s == "")
  | none => false

/-- Lines 146-153: the section-level mask (Company_Group always, plus
Market_Group when the section declares a truthy one) on sales rows. -/
def secSalesMask (sec : RSection) (row : SalesRow) : Bool :=
  optEqS row.companyGroup sec.companyGroup &&
    (!optTruthy sec.marketGroup || optEqS row.marketGroup sec.marketGroup)

/-- The same section-level mask on budget/prior rows. -/
def secRefMask (sec : RSection) (row : RefRow) : Bool :=
  optEqS row.companyGroup sec.companyGroup &&
    (!optTruthy sec.marketGroup || optEqS row.marketGroup sec.marketGroup)

/-- Lines 158 and 207: USA sections read the kUSD budget column when the
budget table has one. -/
def useUSD (data : RepData) (sec : RSection) : Bool :=
  optEqS sec.marketGroup (some "USA") && data.hasKUSD

/-- The budget value column selected for a section. -/
def refVal (usd : Bool) (row : RefRow) : ℚ :=
  if usd then row.valKUSD else row.valKEUR

/-- Masked column sum over the sales table. -/
def sumSales (rows : List SalesRow) (mask : SalesRow → Bool) : ℚ :=
  ((rows.filter mask).map (·.kEUR)).sum

/-- Masked column sum over a reference table. -/
def sumRef (rows : List RefRow) (mask : RefRow → Bool) (usd : Bool) : ℚ :=
  ((rows.filter mask).map (refVal usd)).sum

/-- Line 155: the section's sales total. -/
def sectionTotalSales (data : RepData) (sec : RSection) : ℚ :=
  sumSales data.sales (secSalesMask sec)

/-- Lines 158-161: the section's budget total. -/
def sectionTotalBudget (data : RepData) (sec : RSection) : ℚ :=
  sumRef data.budgetMonth (secRefMask sec) (useUSD data sec)

/-- Line 163: the section's prior total (always the kEUR column). -/
def sectionTotalPrior (data : RepData) (sec : RSection) : ℚ :=
  sumRef data.priorMonth (secRefMask sec) false

/-- Lines 186-192: the item-level sales mask refines the section mask by
region or channel; any other section type leaves it unchanged. -/
def itemSalesMask (sec : RSection) (it : RItem) (row : SalesRow) : Bool :=
  secSalesMask sec row &&
    (if sec.sectionType == some "region" then optEqS row.region it.filterValue
     else if sec.sectionType == some "channel" then
       optEqS row.channelLevel it.filterValue
     else true)

/-- Lines 196-204: budget/prior item lookups use budget_region_map when the
item has one (then always against Region), otherwise the item filter value
against Region for region sections and Channel_Level for all others. -/
def itemRefMask (sec : RSection) (it : RItem) (row : RefRow) : Bool :=
  secRefMask sec row &&
    (if it.budgetRegionMap.isSome || sec.sectionType == some "region" then
       optEqS row.region
         (if it.budgetRegionMap.isSome then it.budgetRegionMap
          else it.filterValue)
     else optEqS row.channelLevel
       (if it.budgetRegionMap.isSome then it.budgetRegionMap
        else it.filterValue))

/-- Line 192: an explicit item's sales value. -/
def itemSalesVal (data : RepData) (sec : RSection) (it : RItem) : ℚ :=
  sumSales data.sales (itemSalesMask sec it)

/-- Lines 207-210: an explicit item's budget value. -/
def itemBudgetVal (data : RepData) (sec : RSection) (it : RItem) : ℚ :=
  sumRef data.budgetMonth (itemRefMask sec it) (useUSD data sec)

/-- Line 212: an explicit item's prior value. -/
def itemPriorVal (data : RepData) (sec : RSection) (it : RItem) : ℚ :=
  sumRef data.priorMonth (itemRefMask sec it) false

/-- A sales/budget/prior triple. -/
structure Tot where
  s : ℚ
  b : ℚ
  p : ℚ
deriving Repr, DecidableEq

/-- Componentwise sum of triples. -/
def Tot.add (x y : Tot) : Tot := ⟨x.s + y.s, x.b + y.b, x.p + y.p⟩

/-- The zero triple. -/
def Tot.zero : Tot := ⟨0, 0, 0⟩

theorem Tot.add_assoc (x y z : Tot) : (x.add y).add z = x.add (y.add z) := by
  simp only [Tot.add, Tot.mk.injEq]
  exact ⟨by ring, by ring, by ring⟩

theorem Tot.zero_add (x : Tot) : Tot.zero.add x = x := by
  simp [Tot.add, Tot.zero]

/-- An explicit item's value triple. -/
def itemVals (data : RepData) (sec : RSection) (it : RItem) : Tot :=
  ⟨itemSalesVal data sec it, itemBudgetVal data sec it, itemPriorVal data sec it⟩

/-- The section's total triple. -/
def sectionTotalVals (data : RepData) (sec : RSection) : Tot :=
  ⟨sectionTotalSales data sec, sectionTotalBudget data sec,
    sectionTotalPrior data sec⟩

/-- A report_data dict row before the DataFrame conversion; the flags the
code leaves out of some dicts (item and fallback rows carry no
is_grand_total key, the section-total row of line 253 carries neither
is_spacer nor is_grand_total) are Option, none meaning the key is absent. -/
structure RawRow where
  label : String
  sales : ℚ
  budget : ℚ
  prior : ℚ
  isTotal : Bool
  isSpacer : Option Bool
  isGrandTotal : Option Bool
deriving Repr, DecidableEq

/-- pandas astype(bool) on an object column: an absent key became NaN and
bool(NaN) is True. -/
def boolOfCell : Option Bool → Bool
  | none => true
  | some b => b

/-- A row of the returned DataFrame after the dtype conversion. -/
structure RRow where
  label : String
  sales : ℚ
  budget : ℚ
  prior : ℚ
  isTotal : Bool
  isSpacer : Bool
  isGrandTotal : Bool
deriving Repr, DecidableEq

/-- Lines 289-295: the dtype conversion of one row. -/
def convertRow (r : RawRow) : RRow :=
  ⟨r.label, r.sales, r.budget, r.prior, r.isTotal, boolOfCell r.isSpacer,
    boolOfCell r.isGrandTotal⟩

/-- A first-pass row: either a finished item row or a fallback placeholder
(lines 172-225). -/
inductive PreRow
  | ph (label : String)
  | row (r : RawRow)
deriving Repr, DecidableEq

/-- One step of the first item loop (lines 172-225): append the explicit
row or a fallback placeholder, accumulating the allocated totals. -/
def itemsStep (data : RepData) (sec : RSection) (acc : List PreRow × Tot)
    (it : RItem) : List PreRow × Tot :=
  if it.isFallback then (acc.1 ++ [PreRow.ph it.label], acc.2)
  else
    (acc.1 ++ [PreRow.row ⟨it.label, itemSalesVal data sec it,
        itemBudgetVal data sec it, itemPriorVal data sec it,
        false, some false, none⟩],
      acc.2.add (itemVals data sec it))

/-- First pass over the declared items: emit explicit rows and fallback
placeholders in order, accumulating the allocated totals. -/
def itemsPass (data : RepData) (sec : RSection) : List PreRow × Tot :=
  sec.items.foldl (itemsStep data sec) ([], Tot.zero)

/-- Lines 230-232: the residual assigned to fallback placeholders. -/
def sectionResidual (data : RepData) (sec : RSection) : Tot :=
  ⟨sectionTotalSales data sec - (itemsPass data sec).2.s,
   sectionTotalBudget data sec - (itemsPass data sec).2.b,
   sectionTotalPrior data sec - (itemsPass data sec).2.p⟩

/-- Lines 227-248: replace each placeholder by the residual row when any
residual magnitude exceeds 0.1, drop it otherwise. -/
def sectionItemRows (data : RepData) (sec : RSection) : List RawRow :=
  (itemsPass data sec).1.filterMap (fun pr =>
    match pr with
    | PreRow.row r => some r
    | PreRow.ph label =>
      if 1/10 < pyAbs (sectionResidual data sec).s ∨
          1/10 < pyAbs (sectionResidual data sec).b ∨
          1/10 < pyAbs (sectionResidual data sec).p then
        some ⟨label, (sectionResidual data sec).s, (sectionResidual data sec).b,
          (sectionResidual data sec).p, false, some false, none⟩
      else none)

/-- Line 252: a section total is emitted when requested or for the four
component titles. -/
def emitsSectionTotal (sec : RSection) : Bool :=
  sec.showTotal || sec.title == "Core Markets" || sec.title == "UK" ||
    sec.title == "USA" || sec.title == "Export"

/-- Lines 252-259: the optional section-total row (its dict carries neither
is_spacer nor is_grand_total). -/
def sectionTotalRows (data : RepData) (sec : RSection) : List RawRow :=
  if emitsSectionTotal sec then
    [⟨sec.title, sectionTotalSales data sec, sectionTotalBudget data sec,
      sectionTotalPrior data sec, true, none, none⟩]
  else []

/-- Lines 269-277: the spacer row closing every regular section. -/
def spacerRow : RawRow := ⟨"", 0, 0, 0, false, some true, some false⟩

/-- All rows a regular section contributes: item rows, the optional section
total, the spacer. -/
def sectionEmit (data : RepData) (sec : RSection) : List RawRow :=
  sectionItemRows data sec ++ sectionTotalRows data sec ++ [spacerRow]

/-- Walk state: emitted rows, per-title section totals (a dict in insertion
order), and the grand-total accumulator. -/
structure RState where
  rows : List RawRow
  totals : List (String × Tot)
  grand : Tot
deriving Repr, DecidableEq

/-- Dict write section_totals[title] = v: update in place or append. -/
def upsertTotals : List (String × Tot) → String → Tot → List (String × Tot)
  | [], t, v => [(t, v)]
  | (t', v') :: rest, t, v =>
    if t' = t then (t', v) :: rest else (t', v') :: upsertTotals rest t v

/-- Dict read. -/
def lookupTotals (ts : List (String × Tot)) (t : String) : Option Tot :=
  (ts.find? (fun p => p.1 = t)).map (·.2)

/-- Lines 85-90: a recorded title matching the roll-up naming convention
(starts with "Company ", ends with " Sales"). -/
def isRollupTitle (t : String) : Bool :=
  startsWithChars "Company ".data t.data &&
    startsWithChars " Sales".data.reverse t.data.reverse

/-- Lines 82-90: sum of the previously recorded totals whose title matches
the roll-up convention. -/
def deductionOf (ts : List (String × Tot)) : Tot :=
  ts.foldl (fun acc p => if isRollupTitle p.1 then acc.add p.2 else acc)
    Tot.zero

/-- Lines 112-117: component-total sections sum the already-recorded totals
of their referenced titles; unknown titles contribute nothing. -/
def componentSum (ts : List (String × Tot)) (comps : List String) : Tot :=
  comps.foldl (fun acc c =>
    match lookupTotals ts c with
    | some v => acc.add v
    | none => acc) Tot.zero

/-- One step of the calculate_report walk (lines 78-283): grand-total nodes
emit the accumulator minus the roll-up deduction; unmapped nodes are
skipped; component-total nodes emit their component sum and add it to the
grand accumulator; regular sections emit their rows, record their totals
under their title, and add their totals to the grand accumulator when their
title contains "Sales". -/
def rstep (data : RepData) (st : RState) (sec : RSection) : RState :=
  if sec.isGrandTotal then
    { st with rows := st.rows ++
        [⟨sec.title, st.grand.s - (deductionOf st.totals).s,
          st.grand.b - (deductionOf st.totals).b,
          st.grand.p - (deductionOf st.totals).p, true, some false,
          some true⟩] }
  else if sec.isUnmapped then st
  else if sec.isTotal then
    { rows := st.rows ++ [⟨sec.title, (componentSum st.totals sec.components).s,
        (componentSum st.totals sec.components).b,
        (componentSum st.totals sec.components).p, true, some false,
        some false⟩]
      totals := st.totals
      grand := st.grand.add (componentSum st.totals sec.components) }
  else
    { rows := st.rows ++ sectionEmit data sec
      totals := upsertTotals st.totals sec.title (sectionTotalVals data sec)
      grand := if strContains sec.title "Sales" then
          st.grand.add (sectionTotalVals data sec)
        else st.grand }

/-- The initial walk state. -/
def RState.init : RState := ⟨[], [], Tot.zero⟩

/-- The report_data list produced by the walk. -/
def calcReportData (cfg : List RSection) (data : RepData) : List RawRow :=
  (cfg.foldl (rstep data) RState.init).rows

/-- calculate_report: the walk followed by the DataFrame dtype conversion
(astype(bool) sends the flags missing from a dict to True). -/
def calcReport (cfg : List RSection) (data : RepData) : List RRow :=
  (calcReportData cfg data).map convertRow


/-! ### Receivables walk lemmas -/

/-- The pre-row an item contributes in the first pass. -/
def preOf (data : RepData) (sec : RSection) (it : RItem) : PreRow :=
  if it.isFallback then PreRow.ph it.label
  else PreRow.row ⟨it.label, itemSalesVal data sec it,
    itemBudgetVal data sec it, itemPriorVal data sec it, false, some false,
    none⟩

/-- The allocated totals of a list of items: the componentwise sums of the
explicit (non-fallback) item values. -/
def allocOf (data : RepData) (sec : RSection) (its : List RItem) : Tot :=
  ⟨((its.filter (fun it => !it.isFallback)).map (itemSalesVal data sec)).sum,
   ((its.filter (fun it => !it.isFallback)).map (itemBudgetVal data sec)).sum,
   ((its.filter (fun it => !it.isFallback)).map (itemPriorVal data sec)).sum⟩

theorem Tot.add_zero (x : Tot) : x.add Tot.zero = x := by
  simp [Tot.add, Tot.zero]

theorem allocOf_cons (data : RepData) (sec : RSection) (it : RItem)
    (rest : List RItem) :
    allocOf data sec (it :: rest) =
      if it.isFallback then allocOf data sec rest
      else (itemVals data sec it).add (allocOf data sec rest) := by
  by_cases h : it.isFallback <;>
    simp [allocOf, List.filter_cons, h, itemVals, Tot.add]

theorem itemsStep_go (data : RepData) (sec : RSection) (its : List RItem) :
    ∀ acc : List PreRow × Tot,
      its.foldl (itemsStep data sec) acc =
        (acc.1 ++ its.map (preOf data sec), acc.2.add (allocOf data sec its)) := by
  induction its with
  | nil =>
    intro acc
    simp [allocOf, Tot.add]
  | cons it rest ih =>
    intro acc
    rw [List.foldl_cons, ih (itemsStep data sec acc it), allocOf_cons]
    by_cases h : it.isFallback
    · have hstep : itemsStep data sec acc it =
          (acc.1 ++ [preOf data sec it], acc.2) := by
        simp [itemsStep, preOf, h]
      rw [hstep, if_pos h]
      simp only [List.map_cons, Prod.mk.injEq]
      exact ⟨by rw [List.append_assoc]; rfl, trivial⟩
    · have hstep : itemsStep data sec acc it =
          (acc.1 ++ [preOf data sec it], acc.2.add (itemVals data sec it)) := by
        simp [itemsStep, preOf, h]
      rw [hstep, if_neg h]
      simp only [List.map_cons, Prod.mk.injEq]
      exact ⟨by rw [List.append_assoc]; rfl, Tot.add_assoc _ _ _⟩

theorem itemsPass_eq (data : RepData) (sec : RSection) :
    itemsPass data sec =
      (sec.items.map (preOf data sec), allocOf data sec sec.items) := by
  unfold itemsPass
  rw [itemsStep_go]
  simp [Tot.zero_add]

/-- The fallback residual in closed form: section totals minus the sums of
the explicit item values, per measure. -/
def residualOf (data : RepData) (sec : RSection) : Tot :=
  ⟨sectionTotalSales data sec - (allocOf data sec sec.items).s,
   sectionTotalBudget data sec - (allocOf data sec sec.items).b,
   sectionTotalPrior data sec - (allocOf data sec sec.items).p⟩

theorem sectionResidual_eq (data : RepData) (sec : RSection) :
    sectionResidual data sec = residualOf data sec := by
  unfold sectionResidual residualOf
  rw [itemsPass_eq]

theorem sectionItemRows_eq (data : RepData) (sec : RSection) :
    sectionItemRows data sec = sec.items.filterMap (fun it =>
      if it.isFallback then
        (if 1/10 < pyAbs (residualOf data sec).s ∨
            1/10 < pyAbs (residualOf data sec).b ∨
            1/10 < pyAbs (residualOf data sec).p then
          some ⟨it.label, (residualOf data sec).s, (residualOf data sec).b,
            (residualOf data sec).p, false, some false, none⟩
        else none)
      else some ⟨it.label, itemSalesVal data sec it, itemBudgetVal data sec it,
        itemPriorVal data sec it, false, some false, none⟩) := by
  unfold sectionItemRows
  rw [itemsPass_eq]
  simp only [sectionResidual_eq]
  rw [List.filterMap_map]
  congr 1
  funext it
  by_cases h : it.isFallback <;> simp [preOf, h, Function.comp]

theorem rstep_rows_append (data : RepData) (st : RState) (sec : RSection) :
    ∃ e, (rstep data st sec).rows = st.rows ++ e := by
  unfold rstep
  split
  · exact ⟨_, rfl⟩
  · split
    · exact ⟨[], by simp⟩
    · split
      · exact ⟨_, rfl⟩
      · exact ⟨_, rfl⟩

theorem foldl_rstep_rows (data : RepData) (l : List RSection) :
    ∀ st : RState, ∃ e, (l.foldl (rstep data) st).rows = st.rows ++ e := by
  induction l with
  | nil => exact fun st => ⟨[], by simp⟩
  | cons sec rest ih =>
    intro st
    obtain ⟨e1, he1⟩ := rstep_rows_append data st sec
    obtain ⟨e2, he2⟩ := ih (rstep data st sec)
    exact ⟨e1 ++ e2, by rw [List.foldl_cons, he2, he1, List.append_assoc]⟩

theorem rstep_regular (data : RepData) (st : RState) (sec : RSection)
    (h1 : sec.isGrandTotal = false) (h2 : sec.isUnmapped = false)
    (h3 : sec.isTotal = false) :
    rstep data st sec =
      ⟨st.rows ++ sectionEmit data sec,
        upsertTotals st.totals sec.title (sectionTotalVals data sec),
        if strContains sec.title "Sales" then
          st.grand.add (sectionTotalVals data sec)
        else st.grand⟩ := by
  unfold rstep
  rw [if_neg (by simp [h1]), if_neg (by simp [h2]), if_neg (by simp [h3])]

theorem calcReportData_decomp (cfg : List RSection) (data : RepData)
    (sec : RSection) (hmem : sec ∈ cfg) (h1 : sec.isGrandTotal = false)
    (h2 : sec.isUnmapped = false) (h3 : sec.isTotal = false) :
    ∃ pre tail, calcReportData cfg data =
      pre ++ sectionEmit data sec ++ tail := by
  obtain ⟨a, b, rfl⟩ := List.append_of_mem hmem
  unfold calcReportData
  rw [List.foldl_append, List.foldl_cons]
  obtain ⟨e2, he2⟩ :=
    foldl_rstep_rows data b (rstep data (a.foldl (rstep data) RState.init) sec)
  refine ⟨(a.foldl (rstep data) RState.init).rows, e2, ?_⟩
  rw [he2, rstep_regular data _ sec h1 h2 h3, List.append_assoc]


/-- C1, counterexample: a section whose only item is the fallback, with a
section total of 0.3 and no reference data.  All three residual measures
round to within 0.5 of zero (0.3, 0, 0), so the claim says the fallback row
is entirely omitted; the code emits it, because its omission threshold is
0.1, not 0.5. -/
theorem c1_fallback_threshold_counterexample :
    calcReportData
        [⟨"S", false, false, false, [], some "G", none, none,
          [⟨"Rest", none, true, none⟩], false⟩]
        ⟨[⟨some "G", none, none, none, 3/10⟩], [], [], false⟩ =
      [⟨"Rest", 3/10, 0, 0, false, some false, none⟩, spacerRow] ∧
      pyAbs (3/10 : ℚ) < 1/2 ∧ pyAbs (0 : ℚ) < 1/2 := by
  refine ⟨?_, by unfold pyAbs; norm_num, by unfold pyAbs; norm_num⟩
  have hres : residualOf
      ⟨[⟨some "G", none, none, none, 3/10⟩], [], [], false⟩
      ⟨"S", false, false, false, [], some "G", none, none,
        [⟨"Rest", none, true, none⟩], false⟩ = ⟨3/10, 0, 0⟩ := by
    simp [residualOf, allocOf, sectionTotalSales, sectionTotalBudget,
      sectionTotalPrior, sumSales, sumRef, secSalesMask, secRefMask,
      optEqS, optTruthy, List.filter]
  have hitems : sectionItemRows
      ⟨[⟨some "G", none, none, none, 3/10⟩], [], [], false⟩
      ⟨"S", false, false, false, [], some "G", none, none,
        [⟨"Rest", none, true, none⟩], false⟩ =
      [⟨"Rest", 3/10, 0, 0, false, some false, none⟩] := by
    rw [sectionItemRows_eq]
    simp only [hres]
    have h1 : (1:ℚ)/10 < pyAbs (3/10) := by unfold pyAbs; norm_num
    simp [List.filterMap_cons, h1]
    norm_num [pyAbs]
  unfold calcReportData
  rw [List.foldl_cons, List.foldl_nil,
    rstep_regular _ RState.init _ rfl rfl rfl]
  show [] ++ sectionEmit _ _ = _
  rw [List.nil_append, sectionEmit, hitems, sectionTotalRows,
    if_neg (by decide)]
  rfl

/-- C1, amended: in the receivables calculate_report (the only report
variant whose walk handles fallback items), every regular section's item
rows appear contiguously in the output sequence, and they equal the declared
items mapped so that each explicit item row carries its own
sales/budget/prior values while each fallback item carries the residual
triple (section total minus the sum of the explicit item values, separately
for each of the three measures) and is dropped from the output, not merely
zeroed, exactly when all three residual magnitudes are at most 0.1 (the
code's threshold, rather than the claimed round-to-within-0.5 bound). -/
theorem c1_fallback_residual_amended (cfg : List RSection) (data : RepData)
    (sec : RSection) (hmem : sec ∈ cfg) (h1 : sec.isGrandTotal = false)
    (h2 : sec.isUnmapped = false) (h3 : sec.isTotal = false) :
    sectionItemRows data sec <:+: calcReportData cfg data ∧
      sectionItemRows data sec = sec.items.filterMap (fun it =>
        if it.isFallback then
          (if 1/10 < pyAbs (residualOf data sec).s ∨
              1/10 < pyAbs (residualOf data sec).b ∨
              1/10 < pyAbs (residualOf data sec).p then
            some ⟨it.label, (residualOf data sec).s, (residualOf data sec).b,
              (residualOf data sec).p, false, some false, none⟩
          else none)
        else some ⟨it.label, itemSalesVal data sec it,
          itemBudgetVal data sec it, itemPriorVal data sec it, false,
          some false, none⟩) := by
  constructor
  · obtain ⟨pre, tail, hdec⟩ := calcReportData_decomp cfg data sec hmem h1 h2 h3
    refine ⟨pre, sectionTotalRows data sec ++ [spacerRow] ++ tail, ?_⟩
    rw [hdec]
    simp [sectionEmit, List.append_assoc]
  · exact sectionItemRows_eq data sec

/-- Witness for C1's amended theorem on the 0.3-residual single-section
configuration. -/
theorem c1_fallback_residual_amended_witness :
    ((⟨"S", false, false, false, [], some "G", none, none,
        [⟨"Rest", none, true, none⟩], false⟩ : RSection) ∈
      [(⟨"S", false, false, false, [], some "G", none, none,
        [⟨"Rest", none, true, none⟩], false⟩ : RSection)]) ∧
      sectionItemRows
        ⟨[⟨some "G", none, none, none, 3/10⟩], [], [], false⟩
        ⟨"S", false, false, false, [], some "G", none, none,
          [⟨"Rest", none, true, none⟩], false⟩ <:+:
        calcReportData
          [⟨"S", false, false, false, [], some "G", none, none,
            [⟨"Rest", none, true, none⟩], false⟩]
          ⟨[⟨some "G", none, none, none, 3/10⟩], [], [], false⟩ :=
  ⟨List.mem_singleton_self _,
    (c1_fallback_residual_amended _ _ _ (List.mem_singleton_self _)
      rfl rfl rfl).1⟩

/-- C10: in the receivables calculate_report, a base section's total row
(its title with the three section totals, flagged is_total) is emitted not
only when show_total is set but also whenever the title is one of
Core Markets, UK, USA, Export; and with show_total unset and a title outside
that list, the section contributes no total-flagged row at all. -/
theorem c10_component_title_totals (cfg : List RSection) (data : RepData)
    (sec : RSection) (hmem : sec ∈ cfg) (h1 : sec.isGrandTotal = false)
    (h2 : sec.isUnmapped = false) (h3 : sec.isTotal = false) :
    ((sec.showTotal = true ∨ sec.title = "Core Markets" ∨ sec.title = "UK" ∨
        sec.title = "USA" ∨ sec.title = "Export") →
      ∃ pre tail, calcReportData cfg data = pre ++
        [⟨sec.title, sectionTotalSales data sec, sectionTotalBudget data sec,
          sectionTotalPrior data sec, true, none, none⟩] ++ tail) ∧
      ((sec.showTotal = false ∧ sec.title ≠ "Core Markets" ∧
          sec.title ≠ "UK" ∧ sec.title ≠ "USA" ∧ sec.title ≠ "Export") →
        ∀ r ∈ sectionEmit data sec, r.isTotal = false) := by
  constructor
  · intro hcond
    have he : emitsSectionTotal sec = true := by
      unfold emitsSectionTotal
      rcases hcond with h | h | h | h | h <;> simp [h]
    obtain ⟨pre, tail, hdec⟩ := calcReportData_decomp cfg data sec hmem h1 h2 h3
    refine ⟨pre ++ sectionItemRows data sec, [spacerRow] ++ tail, ?_⟩
    rw [hdec, sectionEmit, sectionTotalRows, if_pos he]
    simp [List.append_assoc]
  · rintro ⟨hst, ht1, ht2, ht3, ht4⟩ r hr
    have he : emitsSectionTotal sec = false := by
      unfold emitsSectionTotal
      simp [hst, beq_eq_false_iff_ne.mpr ht1, beq_eq_false_iff_ne.mpr ht2,
        beq_eq_false_iff_ne.mpr ht3, beq_eq_false_iff_ne.mpr ht4]
    rw [sectionEmit, sectionTotalRows, if_neg (by simp [he])] at hr
    simp only [List.append_nil, List.mem_append] at hr
    rcases hr with hr | hr
    · rw [sectionItemRows_eq] at hr
      rw [List.mem_filterMap] at hr
      obtain ⟨it, _, hit⟩ := hr
      by_cases h : it.isFallback
      · rw [if_pos h] at hit
        split at hit
        · rw [Option.some_inj] at hit
          rw [← hit]
        · cases hit
      · rw [if_neg h] at hit
        rw [Option.some_inj] at hit
        rw [← hit]
    · rw [List.mem_singleton] at hr
      rw [hr]
      rfl

/-- Witness for C10: the title "UK" forces a total row even with show_total
unset, and a plain title with show_total unset yields no total row. -/
theorem c10_component_title_totals_witness :
    (∃ pre tail,
      calcReportData
          [⟨"UK", false, false, false, [], some "G", none, none, [], false⟩]
          ⟨[⟨some "G", none, none, none, 1⟩], [], [], false⟩ = pre ++
        [⟨"UK",
          sectionTotalSales
            ⟨[⟨some "G", none, none, none, 1⟩], [], [], false⟩
            ⟨"UK", false, false, false, [], some "G", none, none, [], false⟩,
          sectionTotalBudget
            ⟨[⟨some "G", none, none, none, 1⟩], [], [], false⟩
            ⟨"UK", false, false, false, [], some "G", none, none, [], false⟩,
          sectionTotalPrior
            ⟨[⟨some "G", none, none, none, 1⟩], [], [], false⟩
            ⟨"UK", false, false, false, [], some "G", none, none, [], false⟩,
          true, none, none⟩] ++ tail) ∧
      (∀ r ∈ sectionEmit
          ⟨[⟨some "G", none, none, none, 1⟩], [], [], false⟩
          ⟨"Plain", false, false, false, [], some "G", none, none, [], false⟩,
        r.isTotal = false) :=
  ⟨(c10_component_title_totals _ _ _ (List.mem_singleton_self _)
      rfl rfl rfl).1 (Or.inr (Or.inr (Or.inl rfl))),
    (c10_component_title_totals
        [⟨"Plain", false, false, false, [], some "G", none, none, [], false⟩]
        _ _ (List.mem_singleton_self _) rfl rfl rfl).2
      ⟨rfl, by decide, by decide, by decide, by decide⟩⟩

/-! ### Grand-total deduction (C5) -/

/-- The totals-and-grand part of the walk state transition, kept as its own
function so the emitted grand-total line can be described by the prefix of
sections already walked. -/
def tstep (data : RepData) (st : List (String × Tot) × Tot) (sec : RSection) :
    List (String × Tot) × Tot :=
  if sec.isGrandTotal then st
  else if sec.isUnmapped then st
  else if sec.isTotal then (st.1, st.2.add (componentSum st.1 sec.components))
  else (upsertTotals st.1 sec.title (sectionTotalVals data sec),
    if strContains sec.title "Sales" then
      st.2.add (sectionTotalVals data sec)
    else st.2)

/-- Recorded section totals and broad grand-total accumulator after walking
a list of sections. -/
def walkState (data : RepData) (ss : List RSection) :
    List (String × Tot) × Tot :=
  ss.foldl (tstep data) ([], Tot.zero)

theorem foldl_rstep_totals_grand (data : RepData) (ss : List RSection) :
    ∀ st : RState,
      ((ss.foldl (rstep data) st).totals, (ss.foldl (rstep data) st).grand) =
        ss.foldl (tstep data) (st.totals, st.grand) := by
  induction ss with
  | nil => intro st; rfl
  | cons sec rest ih =>
    intro st
    have hstep : ((rstep data st sec).totals, (rstep data st sec).grand) =
        tstep data (st.totals, st.grand) sec := by
      unfold rstep tstep
      by_cases hg : sec.isGrandTotal <;> by_cases hu : sec.isUnmapped <;>
        by_cases htt : sec.isTotal <;> simp [hg, hu, htt]
    rw [List.foldl_cons, List.foldl_cons, ih (rstep data st sec), hstep]

/-- C5: in the receivables (deduction-variant) calculate_report, the grand
total accumulates broadly during the walk (component-total sections and
regular sections whose title contains "Sales"), and the emitted grand-total
line equals that accumulator minus the previously recorded totals of every
section whose title matches the roll-up convention (starts with "Company "
and ends with " Sales"), separately for sales, budget and prior, so that the
roll-up sections are not double-counted. -/
theorem c5_grand_total_deduction (data : RepData) (a b : List RSection)
    (g : RSection) (hg : g.isGrandTotal = true) :
    ∃ tail, calcReportData (a ++ g :: b) data =
      calcReportData a data ++
        [⟨g.title, (walkState data a).2.s - (deductionOf (walkState data a).1).s,
          (walkState data a).2.b - (deductionOf (walkState data a).1).b,
          (walkState data a).2.p - (deductionOf (walkState data a).1).p,
          true, some false, some true⟩] ++ tail := by
  have hts : ((a.foldl (rstep data) RState.init).totals,
      (a.foldl (rstep data) RState.init).grand) = walkState data a :=
    foldl_rstep_totals_grand data a RState.init
  have htots : (a.foldl (rstep data) RState.init).totals =
      (walkState data a).1 := by rw [← hts]
  have hgr : (a.foldl (rstep data) RState.init).grand =
      (walkState data a).2 := by rw [← hts]
  have hgrandrows : ∀ st : RState, (rstep data st g).rows =
      st.rows ++
        [⟨g.title, st.grand.s - (deductionOf st.totals).s,
          st.grand.b - (deductionOf st.totals).b,
          st.grand.p - (deductionOf st.totals).p,
          true, some false, some true⟩] := by
    intro st
    unfold rstep
    rw [if_pos (by simp [hg])]
  have hgrow : (rstep data (a.foldl (rstep data) RState.init) g).rows =
      (a.foldl (rstep data) RState.init).rows ++
        [⟨g.title, (walkState data a).2.s - (deductionOf (walkState data a).1).s,
          (walkState data a).2.b - (deductionOf (walkState data a).1).b,
          (walkState data a).2.p - (deductionOf (walkState data a).1).p,
          true, some false, some true⟩] := by
    rw [hgrandrows (a.foldl (rstep data) RState.init), htots, hgr]
  obtain ⟨tail, htail⟩ :=
    foldl_rstep_rows data b (rstep data (a.foldl (rstep data) RState.init) g)
  refine ⟨tail, ?_⟩
  show (List.foldl (rstep data) RState.init (a ++ g :: b)).rows = _
  rw [List.foldl_append, List.foldl_cons, htail, hgrow]
  rfl

/-- Witness for C5: one roll-up section "Company 1 Sales" worth 1 kEUR
followed by the grand-total node; the emitted grand line is the accumulator
minus the recorded roll-up total. -/
theorem c5_grand_total_deduction_witness :
    (⟨"Grand", true, false, false, [], none, none, none, [],
        false⟩ : RSection).isGrandTotal = true ∧
      ∃ tail, calcReportData
        ([⟨"Company 1 Sales", false, false, false, [], some "G", none, none,
          [], false⟩] ++
          (⟨"Grand", true, false, false, [], none, none, none, [], false⟩ :
            RSection) :: [])
        ⟨[⟨some "G", none, none, none, 1⟩], [], [], false⟩ =
      calcReportData
        [⟨"Company 1 Sales", false, false, false, [], some "G", none, none,
          [], false⟩]
        ⟨[⟨some "G", none, none, none, 1⟩], [], [], false⟩ ++
        [⟨"Grand",
          (walkState ⟨[⟨some "G", none, none, none, 1⟩], [], [], false⟩
            [⟨"Company 1 Sales", false, false, false, [], some "G", none,
              none, [], false⟩]).2.s -
          (deductionOf (walkState
            ⟨[⟨some "G", none, none, none, 1⟩], [], [], false⟩
            [⟨"Company 1 Sales", false, false, false, [], some "G", none,
              none, [], false⟩]).1).s,
          (walkState ⟨[⟨some "G", none, none, none, 1⟩], [], [], false⟩
            [⟨"Company 1 Sales", false, false, false, [], some "G", none,
              none, [], false⟩]).2.b -
          (deductionOf (walkState
            ⟨[⟨some "G", none, none, none, 1⟩], [], [], false⟩
            [⟨"Company 1 Sales", false, false, false, [], some "G", none,
              none, [], false⟩]).1).b,
          (walkState ⟨[⟨some "G", none, none, none, 1⟩], [], [], false⟩
            [⟨"Company 1 Sales", false, false, false, [], some "G", none,
              none, [], false⟩]).2.p -
          (deductionOf (walkState
            ⟨[⟨some "G", none, none, none, 1⟩], [], [], false⟩
            [⟨"Company 1 Sales", false, false, false, [], some "G", none,
              none, [], false⟩]).1).p,
          true, some false, some true⟩] ++ tail :=
  ⟨rfl, c5_grand_total_deduction
    ⟨[⟨some "G", none, none, none, 1⟩], [], [], false⟩
    [⟨"Company 1 Sales", false, false, false, [], some "G", none, none, [],
      false⟩]
    [] ⟨"Grand", true, false, false, [], none, none, none, [], false⟩ rfl⟩


/-! ## USA Spa aggregation (USASpaReportGenerator.calculate_report)

The walk consumes the AR/USA/Spa-filtered, kVAL-normalized sales table and
the region-keyed budget/prior aggregates produced by _prepare_data. -/

/-- One USA Spa sales row. -/
structure USalesRow where
  region : Option String
  kVAL : ℚ
deriving Repr, DecidableEq

/-- A region-keyed aggregate series (the groupby('Region').sum() result). -/
abbrev RegionSeries := List (String × ℚ)

/-- Series lookup by region key. -/
def sGet (l : RegionSeries) (k : String) : Option ℚ :=
  (l.find? (fun p => p.1 == k)).map (·.2)

/-- The data the USA Spa walk consumes. -/
structure USAData where
  sales : List USalesRow
  budgetKUSD : RegionSeries
  budgetKEUR : RegionSeries
  priorKUSD : RegionSeries
  priorKEUR : RegionSeries
deriving Repr, DecidableEq

/-- Lines 296-306: item-level reference lookup preferring a present non-zero
USD value, then a present non-zero EUR value, else zero. -/
def itemLookup (usd eur : RegionSeries) (k : String) : ℚ :=
  if (sGet usd k).isSome ∧ (sGet usd k).getD 0 ≠ 0 then (sGet usd k).getD 0
  else if (sGet eur k).isSome ∧ (sGet eur k).getD 0 ≠ 0 then (sGet eur k).getD 0
  else 0

/-- Lines 342-343: the region-section lookup; its EUR branch checks presence
but not non-zeroness. -/
def regionLookup (usd eur : RegionSeries) (k : String) : ℚ :=
  if (sGet usd k).isSome ∧ (sGet usd k).getD 0 ≠ 0 then (sGet usd k).getD 0
  else if (sGet eur k).isSome then (sGet eur k).getD 0
  else 0

/-- One declared item of a USA Spa section. -/
structure USAItem where
  label : String
  filterValue : Option String
deriving Repr, DecidableEq

/-- One declared node of the USA Spa section list.  refs models the
items-or-components title list a component-total node is summed from; items
is some when the JSON node has an items key. -/
structure USASection where
  title : String
  isGrandTotal : Bool
  isUnmapped : Bool
  isTotal : Bool
  refs : List String
  items : Option (List USAItem)
  region : Option String
  showTotal : Bool
deriving Repr, DecidableEq

/-- The seven per-row measures of this report. -/
structure Vals where
  actual : ℚ
  budget : ℚ
  prior : ℚ
  diffBudget : ℚ
  pctBudget : ℚ
  diffPrior : ℚ
  pctPrior : ℚ
deriving Repr, DecidableEq

/-- The zero measures. -/
def Vals.zero : Vals := ⟨0, 0, 0, 0, 0, 0, 0⟩

/-- A report_data dict row of this walk; the flags some dicts omit (item
rows have no is_grand_total key, the region-section row of line 352 has
neither is_spacer nor is_grand_total, the section-total row of line 369 has
no is_grand_total) are Option, none meaning the key is absent. -/
structure URawRow where
  label : String
  actual : ℚ
  budget : ℚ
  prior : ℚ
  diffBudget : ℚ
  pctBudget : ℚ
  diffPrior : ℚ
  pctPrior : ℚ
  isTotal : Bool
  isSpacer : Option Bool
  isGrandTotal : Option Bool
deriving Repr, DecidableEq

/-- Line 293-294: an item's or region's sales sum. -/
def itemActual (d : USAData) (v : String) : ℚ :=
  ((d.sales.filter (fun r => optEqS r.region (some v))).map (·.kVAL)).sum

/-- Lines 288-334: process one declared item: rows with all of actual,
budget and prior zero are skipped, but every truthy item accumulates into
the section sums (percentages recomputed from the running sums). -/
def uItemStep (d : USAData) (st : List URawRow × Vals) (it : USAItem) :
    List URawRow × Vals :=
  match it.filterValue with
  | some v =>
    if v ≠ "" then
      (let a := itemActual d v
       let b := itemLookup d.budgetKUSD d.budgetKEUR v
       let p := itemLookup d.priorKUSD d.priorKEUR v
       ((if a = 0 ∧ b = 0 ∧ p = 0 then st.1
         else st.1 ++ [⟨it.label, a, b, p, a - b, deltaPct a b, a - p,
           deltaPct a p, false, some false, none⟩]),
        ⟨st.2.actual + a, st.2.budget + b, st.2.prior + p,
          st.2.diffBudget + (a - b),
          deltaPct (st.2.actual + a) (st.2.budget + b),
          st.2.diffPrior + (a - p),
          deltaPct (st.2.actual + a) (st.2.prior + p)⟩))
    else st
  | none => st

/-- The items branch of a regular section. -/
def uSecItems (d : USAData) (its : List USAItem) : List URawRow × Vals :=
  its.foldl (uItemStep d) ([], Vals.zero)

/-- Lines 336-362: the region branch of a regular section without items. -/
def uSecRegion (d : USAData) (sec : USASection) : List URawRow × Vals :=
  match sec.region with
  | some rg =>
    if rg ≠ "" then
      (let a := itemActual d rg
       let b := regionLookup d.budgetKUSD d.budgetKEUR rg
       let p := regionLookup d.priorKUSD d.priorKEUR rg
       ((if a = 0 ∧ b = 0 ∧ p = 0 then []
         else [⟨sec.title, a, b, p, a - b, deltaPct a b, a - p,
           deltaPct a p, false, none, none⟩]),
        ⟨a, b, p, a - b, deltaPct a b, a - p, deltaPct a p⟩))
    else ([], Vals.zero)
  | none => ([], Vals.zero)

/-- The rows and section sums a regular section computes. -/
def uSecCompute (d : USAData) (sec : USASection) : List URawRow × Vals :=
  match sec.items with
  | some its => uSecItems d its
  | none => uSecRegion d sec

/-- Dict write section_totals[title] = v. -/
def upsertVals : List (String × Vals) → String → Vals → List (String × Vals)
  | [], t, v => [(t, v)]
  | (t', v') :: rest, t, v =>
    if t' = t then (t', v) :: rest else (t', v') :: upsertVals rest t v

/-- Dict read. -/
def lookupVals (ts : List (String × Vals)) (t : String) : Option Vals :=
  (ts.find? (fun p => p.1 = t)).map (·.2)

/-- Lines 247-255: fold one referenced component title into a component
total; unknown titles contribute nothing. -/
def uCompStep (ts : List (String × Vals)) (acc : Vals) (c : String) : Vals :=
  match lookupVals ts c with
  | some v =>
    ⟨acc.actual + v.actual, acc.budget + v.budget, acc.prior + v.prior,
      acc.diffBudget + v.diffBudget,
      deltaPct (acc.actual + v.actual) (acc.budget + v.budget),
      acc.diffPrior + v.diffPrior,
      deltaPct (acc.actual + v.actual) (acc.prior + v.prior)⟩
  | none => acc

/-- The component total of a component-total node. -/
def uCompSum (ts : List (String × Vals)) (refs : List String) : Vals :=
  refs.foldl (uCompStep ts) Vals.zero

/-- Lines 402-414: the spacer row closing every regular section. -/
def uSpacerRow : URawRow :=
  ⟨"", 0, 0, 0, 0, 0, 0, 0, false, some true, some false⟩

/-- Walk state of the USA Spa calculate_report. -/
structure UState where
  rows : List URawRow
  totals : List (String × Vals)
  grand : Vals
deriving Repr, DecidableEq

/-- One step of the USA Spa walk (lines 224-414): grand-total nodes emit the
accumulator; unmapped nodes are skipped; component-total nodes emit their
component sum and do not touch the grand accumulator; regular sections emit
their rows, the optional section total and a spacer, record their sums under
their title, and always accumulate into the grand total. -/
def ustep (d : USAData) (st : UState) (sec : USASection) : UState :=
  if sec.isGrandTotal then
    { st with rows := st.rows ++
        [⟨sec.title, st.grand.actual, st.grand.budget, st.grand.prior,
          st.grand.diffBudget, st.grand.pctBudget, st.grand.diffPrior,
          st.grand.pctPrior, true, some false, some true⟩] }
  else if sec.isUnmapped then st
  else if sec.isTotal then
    { st with rows := st.rows ++
        [⟨sec.title, (uCompSum st.totals sec.refs).actual,
          (uCompSum st.totals sec.refs).budget,
          (uCompSum st.totals sec.refs).prior,
          (uCompSum st.totals sec.refs).diffBudget,
          (uCompSum st.totals sec.refs).pctBudget,
          (uCompSum st.totals sec.refs).diffPrior,
          (uCompSum st.totals sec.refs).pctPrior, true, some false,
          some false⟩] }
  else
    { rows := st.rows ++ (uSecCompute d sec).1 ++
        (if sec.showTotal then
          [⟨sec.title, (uSecCompute d sec).2.actual,
            (uSecCompute d sec).2.budget, (uSecCompute d sec).2.prior,
            (uSecCompute d sec).2.diffBudget, (uSecCompute d sec).2.pctBudget,
            (uSecCompute d sec).2.diffPrior, (uSecCompute d sec).2.pctPrior,
            true, some false, none⟩]
        else []) ++ [uSpacerRow]
      totals := upsertVals st.totals sec.title (uSecCompute d sec).2
      grand := ⟨st.grand.actual + (uSecCompute d sec).2.actual,
        st.grand.budget + (uSecCompute d sec).2.budget,
        st.grand.prior + (uSecCompute d sec).2.prior,
        st.grand.diffBudget + (uSecCompute d sec).2.diffBudget,
        deltaPct (st.grand.actual + (uSecCompute d sec).2.actual)
          (st.grand.budget + (uSecCompute d sec).2.budget),
        st.grand.diffPrior + (uSecCompute d sec).2.diffPrior,
        deltaPct (st.grand.actual + (uSecCompute d sec).2.actual)
          (st.grand.prior + (uSecCompute d sec).2.prior)⟩ }

/-- The report_data list produced by the USA Spa walk. -/
def usaCalcRows (cfg : List USASection) (d : USAData) : List URawRow :=
  (cfg.foldl (ustep d) ⟨[], [], Vals.zero⟩).rows

/-- A base section: neither grand-total, nor unmapped, nor component-total
(the checks in the order the code makes them). -/
def uIsBase (sec : USASection) : Bool :=
  !sec.isGrandTotal && !sec.isUnmapped && !sec.isTotal

/-- The declaration-ordered sums of the base sections' actual, budget and
prior measures. -/
def usaBaseSum (d : USAData) (ss : List USASection) : ℚ × ℚ × ℚ :=
  (((ss.filter uIsBase).map (fun sec => (uSecCompute d sec).2.actual)).sum,
   ((ss.filter uIsBase).map (fun sec => (uSecCompute d sec).2.budget)).sum,
   ((ss.filter uIsBase).map (fun sec => (uSecCompute d sec).2.prior)).sum)

theorem foldl_ustep_grand (d : USAData) (ss : List USASection) :
    ∀ st : UState,
      ((ss.foldl (ustep d) st).grand.actual,
        (ss.foldl (ustep d) st).grand.budget,
        (ss.foldl (ustep d) st).grand.prior) =
      (st.grand.actual + (usaBaseSum d ss).1,
        st.grand.budget + (usaBaseSum d ss).2.1,
        st.grand.prior + (usaBaseSum d ss).2.2) := by
  induction ss with
  | nil =>
    intro st
    simp [usaBaseSum]
  | cons sec rest ih =>
    intro st
    rw [List.foldl_cons, ih (ustep d st sec)]
    by_cases hg : sec.isGrandTotal
    · have hstep : (ustep d st sec).grand = st.grand := by
        unfold ustep
        rw [if_pos (by simp [hg])]
      have hbase : uIsBase sec = false := by simp [uIsBase, hg]
      rw [hstep]
      simp [usaBaseSum, List.filter_cons, hbase]
    · by_cases hu : sec.isUnmapped
      · have hstep : (ustep d st sec).grand = st.grand := by
          unfold ustep
          rw [if_neg (by simp [hg]), if_pos (by simp [hu])]
        have hbase : uIsBase sec = false := by simp [uIsBase, hu]
        rw [hstep]
        simp [usaBaseSum, List.filter_cons, hbase]
      · by_cases htt : sec.isTotal
        · have hstep : (ustep d st sec).grand = st.grand := by
            unfold ustep
            rw [if_neg (by simp [hg]), if_neg (by simp [hu]),
              if_pos (by simp [htt])]
          have hbase : uIsBase sec = false := by simp [uIsBase, htt]
          rw [hstep]
          simp [usaBaseSum, List.filter_cons, hbase]
        · have hstep : (ustep d st sec).grand.actual =
              st.grand.actual + (uSecCompute d sec).2.actual ∧
              (ustep d st sec).grand.budget =
                st.grand.budget + (uSecCompute d sec).2.budget ∧
              (ustep d st sec).grand.prior =
                st.grand.prior + (uSecCompute d sec).2.prior := by
            unfold ustep
            rw [if_neg (by simp [hg]), if_neg (by simp [hu]),
              if_neg (by simp [htt])]
            exact ⟨rfl, rfl, rfl⟩
          have hbase : uIsBase sec = true := by simp [uIsBase, hg, hu, htt]
          rw [hstep.1, hstep.2.1, hstep.2.2]
          simp only [usaBaseSum, List.filter_cons, hbase, if_true,
            List.map_cons, List.sum_cons, Prod.mk.injEq]
          exact ⟨by ring, by ring, by ring⟩

/-- C6: in the USA Spa (additive-variant) calculate_report, with the
grand-total node declared after the base sections, the emitted grand-total
line's actual, budget and prior each equal the sum of that measure over all
base (non-total, non-grand-total, non-unmapped) sections in declaration
order; component-total sections never contribute, so no section is counted
twice. -/
theorem c6_grand_total_additive (d : USAData) (ss : List USASection)
    (g : USASection) (hg : g.isGrandTotal = true) :
    (usaCalcRows (ss ++ [g]) d).getLast?.map
        (fun r => (r.actual, r.budget, r.prior)) =
      some (usaBaseSum d ss) := by
  unfold usaCalcRows
  rw [List.foldl_append, List.foldl_cons, List.foldl_nil]
  have hrows : ∀ st : UState, (ustep d st g).rows = st.rows ++
      [⟨g.title, st.grand.actual, st.grand.budget, st.grand.prior,
        st.grand.diffBudget, st.grand.pctBudget, st.grand.diffPrior,
        st.grand.pctPrior, true, some false, some true⟩] := by
    intro st
    unfold ustep
    rw [if_pos (by simp [hg])]
  rw [hrows]
  rw [List.getLast?_concat]
  have hgr := foldl_ustep_grand d ss ⟨[], [], Vals.zero⟩
  have hA : (List.foldl (ustep d) ⟨[], [], Vals.zero⟩ ss).grand.actual =
      (usaBaseSum d ss).1 := by
    have h := congrArg Prod.fst hgr
    simpa [Vals.zero] using h
  have hB : (List.foldl (ustep d) ⟨[], [], Vals.zero⟩ ss).grand.budget =
      (usaBaseSum d ss).2.1 := by
    have h := congrArg (fun x : ℚ × ℚ × ℚ => x.2.1) hgr
    simpa [Vals.zero] using h
  have hC : (List.foldl (ustep d) ⟨[], [], Vals.zero⟩ ss).grand.prior =
      (usaBaseSum d ss).2.2 := by
    have h := congrArg (fun x : ℚ × ℚ × ℚ => x.2.2) hgr
    simpa [Vals.zero] using h
  simp [hA, hB, hC]


/-- Witness for C6: one base region section followed by the grand-total
node. -/
theorem c6_grand_total_additive_witness :
    (⟨"Grand", true, false, false, [], none, none, false⟩ :
        USASection).isGrandTotal = true ∧
      (usaCalcRows
          ([⟨"R1", false, false, false, [], none, some "R1", false⟩] ++
            [⟨"Grand", true, false, false, [], none, none, false⟩])
          ⟨[⟨some "R1", 1⟩], [], [], [], []⟩).getLast?.map
        (fun r => (r.actual, r.budget, r.prior)) =
      some (usaBaseSum ⟨[⟨some "R1", 1⟩], [], [], [], []⟩
        [⟨"R1", false, false, false, [], none, some "R1", false⟩]) :=
  ⟨rfl, c6_grand_total_additive ⟨[⟨some "R1", 1⟩], [], [], [], []⟩
    [⟨"R1", false, false, false, [], none, some "R1", false⟩]
    ⟨"Grand", true, false, false, [], none, none, false⟩ rfl⟩

end SalesReport
